import Mathlib

/-!
Shallow embedding of the security posture extraction engine of the
`eolas` repository (`pkg/kubernetes`: `types.go` and the analysis file).

Go's `interface{}` specification bodies decoded from JSON are modelled by
the tagged tree `JValue`; Go type assertions (`x.(map[string]interface{})`,
`x.([]interface{})`, `x.(string)`, `x.(bool)`, `x.(float64)`) become the
partial accessors `asObj`, `asArr`, `asStr`, `asBool`, `asNum`.  JSON
numbers are modelled as `Int` (the analysis only compares `hostPort > 0`
and truncates to `int`, which is the identity on integral values).
Result accumulation through `*[]T` out-parameters becomes list
concatenation; Go maps become association lists (first-match lookup) or
membership in a list of keys, which is faithful because the code only
ever tests membership and the proved statements do not depend on Go's
unspecified map iteration order.
-/

set_option maxHeartbeats 1000000

/-! ## Definitions -/

/-- JSON-like dynamic value standing for Go's `interface{}` after
`encoding/json` unmarshalling. -/
inductive JValue where
  | null : JValue
  | bool : Bool → JValue
  | num : Int → JValue
  | str : String → JValue
  | arr : List JValue → JValue
  | obj : List (String × JValue) → JValue

/-- Go `v.(map[string]interface{})` type assertion. -/
def JValue.asObj : JValue → Option (List (String × JValue))
  | .obj o => some o
  | _ => none

/-- Go `v.([]interface{})` type assertion. -/
def JValue.asArr : JValue → Option (List JValue)
  | .arr a => some a
  | _ => none

/-- Go `v.(string)` type assertion. -/
def JValue.asStr : JValue → Option String
  | .str s => some s
  | _ => none

/-- Go `v.(bool)` type assertion. -/
def JValue.asBool : JValue → Option Bool
  | .bool b => some b
  | _ => none

/-- Go `v.(float64)` type assertion (numbers modelled as `Int`). -/
def JValue.asNum : JValue → Option Int
  | .num n => some n
  | _ => none

/-- Map-key lookup on an object body, first match. -/
def jLookup (kvs : List (String × JValue)) (k : String) : Option JValue :=
  match kvs with
  | [] => none
  | (k', v) :: rest => if k' = k then some v else jLookup rest k

/-- `spec["k"].(map[string]interface{})`. -/
def getObj (kvs : List (String × JValue)) (k : String) : Option (List (String × JValue)) :=
  (jLookup kvs k).bind JValue.asObj

/-- `spec["k"].([]interface{})`. -/
def getArr (kvs : List (String × JValue)) (k : String) : Option (List JValue) :=
  (jLookup kvs k).bind JValue.asArr

/-- `spec["k"].(string)`. -/
def getStr (kvs : List (String × JValue)) (k : String) : Option String :=
  (jLookup kvs k).bind JValue.asStr

/-- `spec["k"].(bool)`. -/
def getBool (kvs : List (String × JValue)) (k : String) : Option Bool :=
  (jLookup kvs k).bind JValue.asBool

/-- `spec["k"].(float64)`. -/
def getNum (kvs : List (String × JValue)) (k : String) : Option Int :=
  (jLookup kvs k).bind JValue.asNum

/-- `name, _ := m["k"].(string)` — failed assertion leaves the zero value. -/
def getStrD (kvs : List (String × JValue)) (k : String) : String :=
  (getStr kvs k).getD ""

/-- Array field with absence treated as the empty list (the code only
ever iterates such arrays, so a missing field and an empty one agree). -/
def getArrD (kvs : List (String × JValue)) (k : String) : List JValue :=
  (getArr kvs k).getD []

/-- `OwnerReference` from `types.go` (fields unused by the analysis keep
their Go zero values as defaults). -/
structure OwnerReference where
  APIVersion : String := ""
  Kind : String := ""
  Name : String := ""
  UID : String := ""
  Controller : Bool := false
  BlockOwnerDeletion : Bool := false
deriving DecidableEq

/-- `Metadata` from `types.go`. -/
structure Metadata where
  Name : String := ""
  Namespace : String := ""
  Labels : List (String × String) := []
  Annotations : List (String × String) := []
  CreationTimestamp : String := ""
  OwnerReferences : List OwnerReference := []
deriving DecidableEq

/-- `Item` from `types.go`; `Spec`/`Status` are untyped bodies. -/
structure Item where
  ApiVersion : String := ""
  Kind : String := ""
  Metadata : Metadata := {}
  Spec : JValue := .null
  Status : JValue := .null

/-- `ClusterConfig` from `types.go`. -/
structure ClusterConfig where
  ApiVersion : String := ""
  Kind : String := ""
  Items : List Item := []

/-- One increment of `counts[item.Kind]++` on the association-list model
of the Go count map (first matching key is bumped, missing keys are
appended). -/
def bumpCount : List (String × Nat) → String → List (String × Nat)
  | [], k => [(k, 1)]
  | (k', n) :: rest, k =>
    if k' = k then (k', n + 1) :: rest else (k', n) :: bumpCount rest k

/-- `GetResourceCounts`: count items per kind. -/
def GetResourceCounts (config : ClusterConfig) : List (String × Nat) :=
  config.Items.foldl (fun a i => bumpCount a i.Kind) []

/-- Map-access semantics of the count map: value stored at a key, zero if
absent (Go's zero value on read). -/
def getCount : List (String × Nat) → String → Nat
  | [], _ => 0
  | (k', n) :: rest, k => if k' = k then n else getCount rest k

/-- `PrivilegedContainer` finding. -/
structure PrivilegedContainer where
  Name : String := ""
  Namespace : String := ""
  Kind : String := ""
  PodName : String := ""
deriving DecidableEq

/-- `CapabilityContainer` finding. -/
structure CapabilityContainer where
  Name : String := ""
  Namespace : String := ""
  Kind : String := ""
  PodName : String := ""
  Capabilities : List String := []
deriving DecidableEq

/-- `HostNamespaceWorkload` finding. -/
structure HostNamespaceWorkload where
  Name : String := ""
  Namespace : String := ""
  Kind : String := ""
  HostPID : Bool := false
  HostIPC : Bool := false
  HostNetwork : Bool := false
  HostPorts : List Int := []
  ContainerNames : List String := []
deriving DecidableEq

/-- `HostPathVolume` finding. -/
structure HostPathVolume where
  Name : String := ""
  Namespace : String := ""
  Kind : String := ""
  HostPaths : List String := []
  ReadOnly : List Bool := []
deriving DecidableEq

/-- The six controller-kind tests that appear verbatim (as a chain of
string comparisons) in every first pass and in the managed-pod check of
the privileged/capability second passes. -/
def isWorkloadKind (k : String) : Bool :=
  k == "Deployment" || k == "StatefulSet" || k == "DaemonSet" ||
  k == "ReplicaSet" || k == "Job" || k == "CronJob"

/-- Pod-template resolution shared (verbatim, duplicated in the Go
source) by all four `...InWorkload` processors: for `CronJob` descend
`spec.jobTemplate.spec` first — silently keeping the original `spec`
when `jobTemplate` or its `spec` is missing or not an object — then
descend `template.spec`. -/
def resolvePodSpec (kind : String) (spec : List (String × JValue)) :
    Option (List (String × JValue)) :=
  let spec' :=
    if kind == "CronJob" then
      match getObj spec "jobTemplate" with
      | some jobTemplate =>
        match getObj jobTemplate "spec" with
        | some jobSpec => jobSpec
        | none => spec
      | none => spec
    else spec
  match getObj spec' "template" with
  | some template => getObj template "spec"
  | none => none

/-- Body of the loop of `checkContainersForPrivileged` for a single
container value. -/
def privilegedContainerCheck (c : JValue) (ownerName namespc kind : String) :
    List PrivilegedContainer :=
  match c.asObj with
  | none => []
  | some container =>
    let containerName := getStrD container "name"
    match getObj container "securityContext" with
    | none => []
    | some securityContext =>
      match getBool securityContext "privileged" with
      | some true =>
        [{ Name := containerName, Namespace := namespc, Kind := kind,
           PodName := ownerName }]
      | _ => []

/-- `checkContainersForPrivileged`. -/
def checkContainersForPrivileged (containers : List JValue)
    (ownerName namespc kind : String) : List PrivilegedContainer :=
  containers.flatMap (fun c => privilegedContainerCheck c ownerName namespc kind)

/-- `processPrivilegedContainersInPod`. -/
def processPrivilegedContainersInPod (item : Item)
    (podName namespc kind : String) : List PrivilegedContainer :=
  match item.Spec.asObj with
  | none => []
  | some spec =>
    (match getArr spec "containers" with
     | some containers => checkContainersForPrivileged containers podName namespc kind
     | none => []) ++
    (match getArr spec "initContainers" with
     | some initContainers => checkContainersForPrivileged initContainers podName namespc kind
     | none => [])

/-- `processPrivilegedContainersInWorkload`. -/
def processPrivilegedContainersInWorkload (item : Item) : List PrivilegedContainer :=
  match item.Spec.asObj with
  | none => []
  | some spec =>
    match resolvePodSpec item.Kind spec with
    | none => []
    | some podSpec =>
      (match getArr podSpec "containers" with
       | some containers =>
         checkContainersForPrivileged containers item.Metadata.Name item.Metadata.Namespace item.Kind
       | none => []) ++
      (match getArr podSpec "initContainers" with
       | some initContainers =>
         checkContainersForPrivileged initContainers item.Metadata.Name item.Metadata.Namespace item.Kind
       | none => [])

/-- The managed test of the privileged/capability second passes: a pod
counts as managed as soon as any of its owner references has one of the
six controller kinds (the document is not consulted). -/
def ownedByWorkloadKind (item : Item) : Bool :=
  item.Metadata.OwnerReferences.any (fun ref => isWorkloadKind ref.Kind)

/-- Second-pass contribution of one item in `GetPrivilegedContainers`. -/
def privilegedPodContribution (item : Item) : List PrivilegedContainer :=
  if item.Kind == "Pod" && !ownedByWorkloadKind item then
    processPrivilegedContainersInPod item item.Metadata.Name item.Metadata.Namespace item.Kind
  else []

/-- `kindPriority` map of `findHighestPriorityResource` (a missing kind
reads as the Go zero value 0). -/
def kindPriority (k : String) : Nat :=
  if k = "Pod" then 1
  else if k = "ReplicaSet" then 2
  else if k = "Job" then 3
  else if k = "CronJob" then 4
  else if k = "DaemonSet" then 5
  else if k = "StatefulSet" then 6
  else if k = "Deployment" then 7
  else 0

/-- The selection loop shared by `findHighestPriorityResource` and
`findHighestPriorityCapabilityResource`: start from the first element
and replace it whenever a strictly higher priority is seen. -/
def pickHighest (prio : α → Nat) (dflt : α) : List α → α
  | [] => dflt
  | r :: rest => rest.foldl (fun best res => if prio res > prio best then res else best) r

/-- One `containerMap[key] = append(containerMap[key], result)` step on
the association-list model of the grouping map. -/
def insertGrouped (k : String) (a : α) : List (String × List α) → List (String × List α)
  | [] => [(k, [a])]
  | (k', g) :: rest =>
    if k' = k then (k', g ++ [a]) :: rest else (k', g) :: insertGrouped k a rest

/-- Grouping of the results by key (`namespace|name`), modelling the Go
map with first-insertion key order; the proved properties do not depend
on the unspecified map iteration order. -/
def groupByKey (key : α → String) (l : List α) : List (String × List α) :=
  l.foldl (fun acc a => insertGrouped (key a) a acc) []

/-- `findHighestPriorityResource`. -/
def findHighestPriorityResource (resources : List PrivilegedContainer) : PrivilegedContainer :=
  pickHighest (fun r => kindPriority r.Kind) {} resources

/-- `deduplicatePrivilegedResults`: group by `namespace|name` of the
container, keep the highest-priority entry of each group. -/
def deduplicatePrivilegedResults (results : List PrivilegedContainer) :
    List PrivilegedContainer :=
  (groupByKey (fun r => r.Namespace ++ "|" ++ r.Name) results).map
    (fun p => findHighestPriorityResource p.2)

/-- `GetPrivilegedContainers`: first pass over controller kinds, second
pass over pods not owned by a controller kind, then policy A. -/
def GetPrivilegedContainers (config : ClusterConfig) : List PrivilegedContainer :=
  let controllerResults := config.Items.flatMap (fun item =>
    if isWorkloadKind item.Kind then processPrivilegedContainersInWorkload item else [])
  let podResults := config.Items.flatMap privilegedPodContribution
  deduplicatePrivilegedResults (controllerResults ++ podResults)

/-- Body of the loop of `checkContainersForCapabilities` for a single
container value: collect the string entries of
`securityContext.capabilities.add`, emit one finding when the `add`
list is non-empty and at least one entry is a string. -/
def capabilityContainerCheck (c : JValue) (ownerName namespc kind : String) :
    List CapabilityContainer :=
  match c.asObj with
  | none => []
  | some container =>
    let containerName := getStrD container "name"
    match getObj container "securityContext" with
    | none => []
    | some securityContext =>
      match getObj securityContext "capabilities" with
      | none => []
      | some capabilities =>
        match getArr capabilities "add" with
        | none => []
        | some add =>
          if add.isEmpty then []
          else
            let addedCaps := add.filterMap JValue.asStr
            if addedCaps.isEmpty then []
            else
              [{ Name := containerName, Namespace := namespc, Kind := kind,
                 PodName := ownerName, Capabilities := addedCaps }]

/-- `checkContainersForCapabilities`. -/
def checkContainersForCapabilities (containers : List JValue)
    (ownerName namespc kind : String) : List CapabilityContainer :=
  containers.flatMap (fun c => capabilityContainerCheck c ownerName namespc kind)

/-- `processCapabilityContainersInPod`. -/
def processCapabilityContainersInPod (item : Item)
    (podName namespc kind : String) : List CapabilityContainer :=
  match item.Spec.asObj with
  | none => []
  | some spec =>
    (match getArr spec "containers" with
     | some containers => checkContainersForCapabilities containers podName namespc kind
     | none => []) ++
    (match getArr spec "initContainers" with
     | some initContainers => checkContainersForCapabilities initContainers podName namespc kind
     | none => [])

/-- `processCapabilityContainersInWorkload`. -/
def processCapabilityContainersInWorkload (item : Item) : List CapabilityContainer :=
  match item.Spec.asObj with
  | none => []
  | some spec =>
    match resolvePodSpec item.Kind spec with
    | none => []
    | some podSpec =>
      (match getArr podSpec "containers" with
       | some containers =>
         checkContainersForCapabilities containers item.Metadata.Name item.Metadata.Namespace item.Kind
       | none => []) ++
      (match getArr podSpec "initContainers" with
       | some initContainers =>
         checkContainersForCapabilities initContainers item.Metadata.Name item.Metadata.Namespace item.Kind
       | none => [])

/-- Second-pass contribution of one item in `GetCapabilityContainers`. -/
def capabilityPodContribution (item : Item) : List CapabilityContainer :=
  if item.Kind == "Pod" && !ownedByWorkloadKind item then
    processCapabilityContainersInPod item item.Metadata.Name item.Metadata.Namespace item.Kind
  else []

/-- `findHighestPriorityCapabilityResource`. -/
def findHighestPriorityCapabilityResource (resources : List CapabilityContainer) :
    CapabilityContainer :=
  pickHighest (fun r => kindPriority r.Kind) {} resources

/-- `deduplicateCapabilityResults`. -/
def deduplicateCapabilityResults (results : List CapabilityContainer) :
    List CapabilityContainer :=
  (groupByKey (fun r => r.Namespace ++ "|" ++ r.Name) results).map
    (fun p => findHighestPriorityCapabilityResource p.2)

/-- `GetCapabilityContainers`. -/
def GetCapabilityContainers (config : ClusterConfig) : List CapabilityContainer :=
  let controllerResults := config.Items.flatMap (fun item =>
    if isWorkloadKind item.Kind then processCapabilityContainersInWorkload item else [])
  let podResults := config.Items.flatMap capabilityPodContribution
  deduplicateCapabilityResults (controllerResults ++ podResults)

/-- Map-access semantics of the grouping map. -/
def getGroup : List (String × List α) → String → List α
  | [], _ => []
  | (k', g) :: rest, k => if k' = k then g else getGroup rest k

/-- Body of the ports loop of `checkContainersForHostPorts` for one
port-mapping value: record a positive, not yet recorded `hostPort`
(Go's `containsInt` is `List.contains`). -/
def addPortInfo (w : HostNamespaceWorkload) (p : JValue) : HostNamespaceWorkload :=
  match p.asObj with
  | none => w
  | some port =>
    match getNum port "hostPort" with
    | none => w
    | some hostPort =>
      if hostPort > 0 then
        if !(w.HostPorts.contains hostPort) then
          { w with HostPorts := w.HostPorts ++ [hostPort] }
        else w
      else w

/-- Body of the loop of `checkContainersForHostPorts` for one container
value: record the container name (if non-empty and new, via Go's
`containsString`), then scan the container's `ports`. -/
def addContainerInfo (w : HostNamespaceWorkload) (c : JValue) : HostNamespaceWorkload :=
  match c.asObj with
  | none => w
  | some container =>
    let containerName := getStrD container "name"
    let w :=
      if !(w.ContainerNames.contains containerName) && containerName != "" then
        { w with ContainerNames := w.ContainerNames ++ [containerName] }
      else w
    match getArr container "ports" with
    | none => w
    | some ports => ports.foldl addPortInfo w

/-- `checkContainersForHostPorts`. -/
def checkContainersForHostPorts (containers : List JValue) (w : HostNamespaceWorkload) :
    HostNamespaceWorkload :=
  containers.foldl addContainerInfo w

/-- `checkPodForHostNamespaces`: flags are set only when the pod-level
boolean is present and `true`; the finding is emitted only when a flag
is set or a host port was recorded. -/
def checkPodForHostNamespaces (item : Item) (nm namespc kind : String) :
    List HostNamespaceWorkload :=
  match item.Spec.asObj with
  | none => []
  | some spec =>
    let hostPID := getBool spec "hostPID" == some true
    let hostIPC := getBool spec "hostIPC" == some true
    let hostNetwork := getBool spec "hostNetwork" == some true
    let hostNamespaceUsed := hostPID || hostIPC || hostNetwork
    let w0 : HostNamespaceWorkload :=
      { Name := nm, Namespace := namespc, Kind := kind,
        HostPID := hostPID, HostIPC := hostIPC, HostNetwork := hostNetwork }
    let w1 :=
      match getArr spec "containers" with
      | some containers => checkContainersForHostPorts containers w0
      | none => w0
    let w2 :=
      match getArr spec "initContainers" with
      | some initContainers => checkContainersForHostPorts initContainers w1
      | none => w1
    if hostNamespaceUsed || !w2.HostPorts.isEmpty then [w2] else []

/-- `checkWorkloadForHostNamespaces`: resolve the pod template and reuse
the pod check on a mock `Item` carrying the workload's kind and name. -/
def checkWorkloadForHostNamespaces (item : Item) : List HostNamespaceWorkload :=
  match item.Spec.asObj with
  | none => []
  | some spec =>
    match resolvePodSpec item.Kind spec with
    | none => []
    | some podSpec =>
      checkPodForHostNamespaces
        { Kind := item.Kind,
          Metadata := { Name := item.Metadata.Name, Namespace := item.Metadata.Namespace },
          Spec := .obj podSpec }
        item.Metadata.Name item.Metadata.Namespace item.Kind

/-- `fmt.Sprintf("%s/%s", item.Kind, item.Metadata.Name)`. -/
def controllerKey (item : Item) : String :=
  item.Kind ++ "/" ++ item.Metadata.Name

/-- `fmt.Sprintf("%s/%s", ref.Kind, ref.Name)`. -/
def refKey (ref : OwnerReference) : String :=
  ref.Kind ++ "/" ++ ref.Name

/-- `fmt.Sprintf("%s/%s", item.Metadata.Namespace, item.Metadata.Name)`. -/
def podKey (item : Item) : String :=
  item.Metadata.Namespace ++ "/" ++ item.Metadata.Name

/-- `markManagedPods`: the pod keys marked for one controller key — pods
whose owner-reference list has an entry with the matching `kind/name`
key (namespaces are never consulted). -/
def markManagedPods (config : ClusterConfig) (ck : String) : List String :=
  config.Items.filterMap (fun item =>
    if item.Kind == "Pod" && item.Metadata.OwnerReferences.any (fun ref => refKey ref == ck) then
      some (podKey item)
    else none)

/-- The full contents of the `processedPods` map after the first pass of
`GetHostNamespaceWorkloads` / `GetHostPathVolumes` (the map only ever
feeds membership tests, so a list of keys is a faithful model). -/
def processedPodKeys (config : ClusterConfig) : List String :=
  config.Items.flatMap (fun item =>
    if isWorkloadKind item.Kind then markManagedPods config (controllerKey item) else [])

/-- Second-pass contribution of one item in `GetHostNamespaceWorkloads`. -/
def hostNamespacePodContribution (config : ClusterConfig) (item : Item) :
    List HostNamespaceWorkload :=
  if item.Kind == "Pod" && !((processedPodKeys config).contains (podKey item)) then
    checkPodForHostNamespaces item item.Metadata.Name item.Metadata.Namespace item.Kind
  else []

/-- Go's `strings.HasPrefix s p`, written on the character list (this
is `String.startsWith` but in a form the kernel evaluates). -/
def stringStartsWith (s p : String) : Bool :=
  p.data.isPrefixOf s.data

/-- The fixed control-plane name allowlist test of
`deduplicateHostNamespaceWorkloads` / `deduplicateHostPathWorkloads`. -/
def isControlPlanePodName (nm : String) : Bool :=
  ["etcd-", "kube-apiserver-", "kube-controller-manager-", "kube-scheduler-"].any
    (fun p => stringStartsWith nm p)

/-- One pass of policy B: walk the findings, keep those passing `keep`
whose key has not been seen, extending `seen` with each kept key. -/
def keepFirstByKey (key : α → String) (keep : α → Bool) (seen : List String) :
    List α → List α
  | [] => []
  | r :: rest =>
    if keep r && !(seen.contains (key r)) then
      r :: keepFirstByKey key keep (seen ++ [key r]) rest
    else keepFirstByKey key keep seen rest

/-- `fmt.Sprintf("%s/%s/%s", result.Namespace, result.Kind, result.Name)`. -/
def hostNamespaceWorkloadKey (r : HostNamespaceWorkload) : String :=
  r.Namespace ++ "/" ++ r.Kind ++ "/" ++ r.Name

/-- `deduplicateHostNamespaceWorkloads`: first keep non-Pod findings
(first per key), then keep control-plane-named Pod findings whose key is
still unseen. -/
def deduplicateHostNamespaceWorkloads (results : List HostNamespaceWorkload) :
    List HostNamespaceWorkload :=
  let nonPod := keepFirstByKey hostNamespaceWorkloadKey (fun r => r.Kind != "Pod") [] results
  nonPod ++ keepFirstByKey hostNamespaceWorkloadKey
    (fun r => r.Kind == "Pod" && isControlPlanePodName r.Name)
    (nonPod.map hostNamespaceWorkloadKey) results

/-- `GetHostNamespaceWorkloads`. -/
def GetHostNamespaceWorkloads (config : ClusterConfig) : List HostNamespaceWorkload :=
  let controllerResults := config.Items.flatMap (fun item =>
    if isWorkloadKind item.Kind then checkWorkloadForHostNamespaces item else [])
  let podResults := config.Items.flatMap (hostNamespacePodContribution config)
  deduplicateHostNamespaceWorkloads (controllerResults ++ podResults)

/-- One `volumeMounts` entry test of `checkContainersForReadOnlyMount`:
the mount's name equals the volume's name and `readOnly` is present and
`true`. -/
def mountMatchesReadOnly (vm : JValue) (volumeName : String) : Bool :=
  match vm.asObj with
  | none => false
  | some mount =>
    getStrD mount "name" == volumeName && getBool mount "readOnly" == some true

/-- One container test of `checkContainersForReadOnlyMount`: some entry
of the container's `volumeMounts` mounts the volume read-only. -/
def containerMountsVolumeReadOnly (c : JValue) (volumeName : String) : Bool :=
  match c.asObj with
  | none => false
  | some container =>
    match getArr container "volumeMounts" with
    | none => false
    | some volumeMounts => volumeMounts.any (fun vm => mountMatchesReadOnly vm volumeName)

/-- `checkContainersForReadOnlyMount`. -/
def checkContainersForReadOnlyMount (containers : List JValue) (volumeName : String) : Bool :=
  containers.any (fun c => containerMountsVolumeReadOnly c volumeName)

/-- The per-volume read-only determination of
`checkPodForHostPathVolumes`: scan main containers, then OR in the init
containers. -/
def volumeIsReadOnly (spec : List (String × JValue)) (volumeName : String) : Bool :=
  (match getArr spec "containers" with
   | some containers => checkContainersForReadOnlyMount containers volumeName
   | none => false) ||
  (match getArr spec "initContainers" with
   | some initContainers => checkContainersForReadOnlyMount initContainers volumeName
   | none => false)

/-- The volume filter of `checkPodForHostPathVolumes`: an entry is
recorded when it is an object whose `hostPath.path` is a non-empty
string; the recorded pair is `(volume name, path)`. -/
def hostPathEntryOf (v : JValue) : Option (String × String) :=
  match v.asObj with
  | none => none
  | some volume =>
    match getObj volume "hostPath" with
    | none => none
    | some hostPath =>
      match getStr hostPath "path" with
      | none => none
      | some path => if path == "" then none else some (getStrD volume "name", path)

/-- The recorded `(volume name, path)` pairs of one pod specification. -/
def hostPathEntries (volumes : List JValue) : List (String × String) :=
  volumes.filterMap hostPathEntryOf

/-- `checkPodForHostPathVolumes`: the Go loop builds `hostPaths` and
`readOnly` in lockstep over the recorded volumes; here both are
projections of the single recorded entry list (the early return on a
missing or empty `volumes` array coincides with the entry list being
empty). -/
def checkPodForHostPathVolumes (item : Item) (nm namespc kind : String) :
    List HostPathVolume :=
  match item.Spec.asObj with
  | none => []
  | some spec =>
    let entries := hostPathEntries (getArrD spec "volumes")
    if entries.isEmpty then []
    else
      [{ Name := nm, Namespace := namespc, Kind := kind,
         HostPaths := entries.map Prod.snd,
         ReadOnly := entries.map (fun e => volumeIsReadOnly spec e.1) }]

/-- `checkWorkloadForHostPathVolumes`. -/
def checkWorkloadForHostPathVolumes (item : Item) : List HostPathVolume :=
  match item.Spec.asObj with
  | none => []
  | some spec =>
    match resolvePodSpec item.Kind spec with
    | none => []
    | some podSpec =>
      checkPodForHostPathVolumes
        { Kind := item.Kind,
          Metadata := { Name := item.Metadata.Name, Namespace := item.Metadata.Namespace },
          Spec := .obj podSpec }
        item.Metadata.Name item.Metadata.Namespace item.Kind

/-- `fmt.Sprintf("%s/%s/%s", result.Namespace, result.Kind, result.Name)`. -/
def hostPathVolumeKey (r : HostPathVolume) : String :=
  r.Namespace ++ "/" ++ r.Kind ++ "/" ++ r.Name

/-- `deduplicateHostPathWorkloads` (same two-pass shape as the
host-namespace variant). -/
def deduplicateHostPathWorkloads (results : List HostPathVolume) : List HostPathVolume :=
  let nonPod := keepFirstByKey hostPathVolumeKey (fun r => r.Kind != "Pod") [] results
  nonPod ++ keepFirstByKey hostPathVolumeKey
    (fun r => r.Kind == "Pod" && isControlPlanePodName r.Name)
    (nonPod.map hostPathVolumeKey) results

/-- Second-pass contribution of one item in `GetHostPathVolumes`. -/
def hostPathPodContribution (config : ClusterConfig) (item : Item) : List HostPathVolume :=
  if item.Kind == "Pod" && !((processedPodKeys config).contains (podKey item)) then
    checkPodForHostPathVolumes item item.Metadata.Name item.Metadata.Namespace item.Kind
  else []

/-- `GetHostPathVolumes`. -/
def GetHostPathVolumes (config : ClusterConfig) : List HostPathVolume :=
  let controllerResults := config.Items.flatMap (fun item =>
    if isWorkloadKind item.Kind then checkWorkloadForHostPathVolumes item else [])
  let podResults := config.Items.flatMap (hostPathPodContribution config)
  deduplicateHostPathWorkloads (controllerResults ++ podResults)

/-- A port-mapping value declaring a positive `hostPort`. -/
def hasPositiveHostPort (p : JValue) : Bool :=
  match p.asObj with
  | none => false
  | some port =>
    match getNum port "hostPort" with
    | none => false
    | some hostPort => decide (hostPort > 0)

/-- A container value declaring a positive `hostPort` in some entry of
its `ports`. -/
def containerHasPositiveHostPort (c : JValue) : Bool :=
  match c.asObj with
  | none => false
  | some container => (getArrD container "ports").any hasPositiveHostPort

/-- The claim-side condition for a host-namespace finding, phrased from
the specification text: one of the three pod-level booleans is
explicitly `true`, or some main or init container declares a positive
`hostPort`. -/
def hostFlagsOrPortsPresent (item : Item) : Prop :=
  ∃ spec, item.Spec = JValue.obj spec ∧
    (getBool spec "hostPID" = some true ∨ getBool spec "hostIPC" = some true ∨
     getBool spec "hostNetwork" = some true ∨
     ∃ c ∈ getArrD spec "containers" ++ getArrD spec "initContainers",
       containerHasPositiveHostPort c = true)

/-- Claim-side predicate for C5, phrased from the specification text:
some main or init container's `volumeMounts` has an entry whose name
equals the volume's name and whose `readOnly` is `true`. -/
def mountedReadOnlyInSomeContainer (spec : List (String × JValue)) (volumeName : String) : Prop :=
  ∃ c ∈ getArrD spec "containers" ++ getArrD spec "initContainers",
    ∃ container, c = JValue.obj container ∧
      ∃ vm ∈ getArrD container "volumeMounts",
        ∃ mount, vm = JValue.obj mount ∧
          getStrD mount "name" = volumeName ∧ getBool mount "readOnly" = some true

/-- A controller-attributed privileged finding. -/
def privDeploymentFinding : PrivilegedContainer :=
  { Name := "web", Namespace := "default", Kind := "Deployment", PodName := "frontend" }

/-- The same container reported through a managed pod. -/
def privPodFinding : PrivilegedContainer :=
  { Name := "web", Namespace := "default", Kind := "Pod", PodName := "frontend-abc" }

/-- A control-plane pod finding (policy-B allowlist). -/
def cpPodFinding : HostNamespaceWorkload :=
  { Name := "kube-apiserver-node1", Namespace := "kube-system", Kind := "Pod",
    HostNetwork := true }

/-- Two distinct non-Pod findings sharing the `namespace/kind/name` key. -/
def dupDeploymentFindingA : HostNamespaceWorkload :=
  { Name := "web", Namespace := "default", Kind := "Deployment", HostNetwork := true,
    ContainerNames := ["a"] }

/-- Second finding with the same key as `dupDeploymentFindingA`. -/
def dupDeploymentFindingB : HostNamespaceWorkload :=
  { Name := "web", Namespace := "default", Kind := "Deployment", HostNetwork := true,
    ContainerNames := ["b"] }

/-- Pod spec mounting one host-path volume read-write in one container
and read-only in another. -/
def mixedMountSpec : List (String × JValue) :=
  [("volumes", JValue.arr [JValue.obj [("name", JValue.str "data"),
      ("hostPath", JValue.obj [("path", JValue.str "/var/data")])]]),
   ("containers", JValue.arr
     [JValue.obj [("name", JValue.str "writer"),
        ("volumeMounts", JValue.arr [JValue.obj [("name", JValue.str "data")]])],
      JValue.obj [("name", JValue.str "reader"),
        ("volumeMounts", JValue.arr [JValue.obj [("name", JValue.str "data"),
           ("readOnly", JValue.bool true)]])]])]

/-- Pod item carrying `mixedMountSpec`. -/
def mixedMountPod : Item :=
  { Kind := "Pod", Metadata := { Name := "p1", Namespace := "ns1" },
    Spec := JValue.obj mixedMountSpec }

/-- The finding emitted for `mixedMountPod`. -/
def mixedMountFinding : HostPathVolume :=
  { Name := "p1", Namespace := "ns1", Kind := "Pod",
    HostPaths := ["/var/data"], ReadOnly := [true] }

/-- Pod template spec of the `kindnet` scenario. -/
def kindnetPodSpec : List (String × JValue) :=
  [("hostNetwork", JValue.bool true),
   ("containers", JValue.arr [JValue.obj [("name", JValue.str "kindnet-cni")]])]

/-- The `kindnet` DaemonSet record. -/
def kindnetItem : Item :=
  { Kind := "DaemonSet", Metadata := { Name := "kindnet", Namespace := "kube-system" },
    Spec := JValue.obj [("template", JValue.obj [("spec", JValue.obj kindnetPodSpec)])] }

/-- The mock pod `checkWorkloadForHostNamespaces` builds for `kindnetItem`. -/
def kindnetMockPod : Item :=
  { Kind := "DaemonSet", Metadata := { Name := "kindnet", Namespace := "kube-system" },
    Spec := JValue.obj kindnetPodSpec }

/-- `add` list mixing capability names with a non-string entry. -/
def capAddList : List JValue :=
  [JValue.str "NET_ADMIN", JValue.num 7, JValue.str "SYS_TIME"]

/-- `capabilities` object of the capability witness. -/
def capCapsObj : List (String × JValue) := [("add", JValue.arr capAddList)]

/-- `securityContext` object of the capability witness. -/
def capSCObj : List (String × JValue) := [("capabilities", JValue.obj capCapsObj)]

/-- Container body of the capability witness. -/
def capAddContainerObj : List (String × JValue) :=
  [("name", JValue.str "c2"), ("securityContext", JValue.obj capSCObj)]

/-- Container whose `add` entries are all non-strings. -/
def nonStringAddContainer : JValue :=
  JValue.obj [("name", JValue.str "c1"),
    ("securityContext", JValue.obj [("capabilities", JValue.obj
      [("add", JValue.arr [JValue.num 42])])])]

/-- Document with one standalone pod with a host-path volume. -/
def etcdHostPathConfig : ClusterConfig :=
  { Items := [
    { Kind := "Pod",
      Metadata := { Name := "etcd-node1", Namespace := "kube-system" },
      Spec := JValue.obj
        [("containers", JValue.arr [JValue.obj
           [("name", JValue.str "etcd"),
            ("volumeMounts", JValue.arr [JValue.obj
              [("name", JValue.str "data"), ("readOnly", JValue.bool true)]])]]),
         ("volumes", JValue.arr [JValue.obj
           [("name", JValue.str "data"),
            ("hostPath", JValue.obj [("path", JValue.str "/var/lib/etcd")])]])] }] }

/-- The finding emitted for `etcdHostPathConfig`. -/
def etcdHostPathFinding : HostPathVolume :=
  { Name := "etcd-node1", Namespace := "kube-system", Kind := "Pod",
    HostPaths := ["/var/lib/etcd"], ReadOnly := [true] }

/-- A Deployment in namespace `ns1`. -/
def crossNsController : Item :=
  { Kind := "Deployment", Metadata := { Name := "web", Namespace := "ns1" } }

/-- A pod in namespace `ns2` whose owner reference names the `ns1`
Deployment's kind and name. -/
def crossNsPod : Item :=
  { Kind := "Pod",
    Metadata := { Name := "web-1", Namespace := "ns2",
                  OwnerReferences := [{ Kind := "Deployment", Name := "web" }] },
    Spec := JValue.obj [("hostNetwork", JValue.bool true)] }

/-- Document holding `crossNsController` and `crossNsPod`. -/
def crossNsConfig : ClusterConfig := { Items := [crossNsController, crossNsPod] }

/-- A pod whose owner reference names a Deployment absent from the
document, with a privileged container, a host flag, and a control-plane
name so policy B cannot hide the host-namespace finding. -/
def orphanPodConfig : ClusterConfig :=
  { Items := [
    { Kind := "Pod",
      Metadata := { Name := "etcd-orphan", Namespace := "ns2",
                    OwnerReferences := [{ Kind := "Deployment", Name := "ghost" }] },
      Spec := JValue.obj
        [("hostNetwork", JValue.bool true),
         ("containers", JValue.arr [JValue.obj
           [("name", JValue.str "c"),
            ("securityContext", JValue.obj [("privileged", JValue.bool true)])]])] }] }

/-- CronJob spec with no `jobTemplate` and no `template`. -/
def bareCronJobObj : List (String × JValue) := [("schedule", JValue.str "0 0 * * *")]

/-- CronJob record carrying `bareCronJobObj`. -/
def bareCronJob : Item :=
  { Kind := "CronJob", Metadata := { Name := "cj", Namespace := "ns" },
    Spec := JValue.obj bareCronJobObj }

/-- CronJob spec with no `jobTemplate` but a direct `template.spec`
subtree holding a privileged container. -/
def directTemplateCronJobObj : List (String × JValue) :=
  [("template", JValue.obj [("spec", JValue.obj
    [("containers", JValue.arr [JValue.obj
      [("name", JValue.str "c"),
       ("securityContext", JValue.obj [("privileged", JValue.bool true)])]])])])]

/-- CronJob record carrying `directTemplateCronJobObj`. -/
def directTemplateCronJob : Item :=
  { Kind := "CronJob", Metadata := { Name := "cj2", Namespace := "ns3" },
    Spec := JValue.obj directTemplateCronJobObj }

/-! ## Theorems -/

theorem getCount_bumpCount_same (l : List (String × Nat)) (k : String) :
    getCount (bumpCount l k) k = getCount l k + 1 := by
  induction l with
  | nil => simp [bumpCount, getCount]
  | cons hd tl ih =>
    obtain ⟨k', n⟩ := hd
    by_cases h : k' = k
    · simp [bumpCount, getCount, h]
    · simp [bumpCount, getCount, h, ih]

theorem getCount_bumpCount_ne (l : List (String × Nat)) (k k2 : String) (h : k ≠ k2) :
    getCount (bumpCount l k) k2 = getCount l k2 := by
  induction l with
  | nil => simp [bumpCount, getCount, h]
  | cons hd tl ih =>
    obtain ⟨k', n⟩ := hd
    by_cases hk : k' = k
    · subst hk
      simp [bumpCount, getCount, h]
    · simp [bumpCount, getCount, hk, ih]

theorem sum_bumpCount (l : List (String × Nat)) (k : String) :
    ((bumpCount l k).map Prod.snd).sum = (l.map Prod.snd).sum + 1 := by
  induction l with
  | nil => simp [bumpCount]
  | cons hd tl ih =>
    obtain ⟨k', n⟩ := hd
    by_cases h : k' = k
    · simp [bumpCount, h]
      omega
    · simp [bumpCount, h, ih]
      omega

theorem sum_foldl_bumpCount (items : List Item) (acc : List (String × Nat)) :
    ((items.foldl (fun a i => bumpCount a i.Kind) acc).map Prod.snd).sum
      = (acc.map Prod.snd).sum + items.length := by
  induction items generalizing acc with
  | nil => simp
  | cons hd tl ih =>
    simp only [List.foldl_cons, ih, sum_bumpCount, List.length_cons]
    omega

theorem getCount_foldl_bumpCount (items : List Item) (acc : List (String × Nat)) (k : String) :
    getCount (items.foldl (fun a i => bumpCount a i.Kind) acc) k
      = getCount acc k + (items.filter (fun i => i.Kind = k)).length := by
  induction items generalizing acc with
  | nil => simp
  | cons hd tl ih =>
    simp only [List.foldl_cons, ih, List.filter_cons]
    by_cases h : hd.Kind = k
    · rw [h, getCount_bumpCount_same]
      simp [h]
      omega
    · rw [getCount_bumpCount_ne _ _ _ h]
      simp [h]

/-- C9: for every parsed document the counts returned by
`GetResourceCounts` sum to the number of items, and the count stored at
each kind equals the number of items bearing that kind. -/
theorem getResourceCounts_sum_and_perKind (config : ClusterConfig) :
    ((GetResourceCounts config).map Prod.snd).sum = config.Items.length
    ∧ ∀ k : String, getCount (GetResourceCounts config) k
        = (config.Items.filter (fun i => i.Kind = k)).length := by
  constructor
  · have h := sum_foldl_bumpCount config.Items []
    simpa [GetResourceCounts] using h
  · intro k
    have h := getCount_foldl_bumpCount config.Items [] k
    simpa [GetResourceCounts, getCount] using h

theorem getGroup_insertGrouped_same (l : List (String × List α)) (k : String) (a : α) :
    getGroup (insertGrouped k a l) k = getGroup l k ++ [a] := by
  induction l with
  | nil => simp [insertGrouped, getGroup]
  | cons hd tl ih =>
    obtain ⟨k', g⟩ := hd
    by_cases h : k' = k
    · simp [insertGrouped, getGroup, h]
    · simp [insertGrouped, getGroup, h, ih]

theorem getGroup_insertGrouped_ne (l : List (String × List α)) (k k2 : String) (a : α)
    (h : k ≠ k2) : getGroup (insertGrouped k a l) k2 = getGroup l k2 := by
  induction l with
  | nil => simp [insertGrouped, getGroup, h]
  | cons hd tl ih =>
    obtain ⟨k', g⟩ := hd
    by_cases hk : k' = k
    · subst hk
      simp [insertGrouped, getGroup, h]
    · simp [insertGrouped, getGroup, hk, ih]

theorem getGroup_foldl_insert (key : α → String) (l : List α)
    (acc : List (String × List α)) (k : String) :
    getGroup (l.foldl (fun acc a => insertGrouped (key a) a acc) acc) k
      = getGroup acc k ++ l.filter (fun b => key b = k) := by
  induction l generalizing acc with
  | nil => simp
  | cons hd tl ih =>
    simp only [List.foldl_cons, ih, List.filter_cons]
    by_cases h : key hd = k
    · rw [h, getGroup_insertGrouped_same]
      simp
    · rw [getGroup_insertGrouped_ne _ _ _ _ h]
      simp [h]

theorem keys_insertGrouped (l : List (String × List α)) (k : String) (a : α) :
    (insertGrouped k a l).map Prod.fst
      = if k ∈ l.map Prod.fst then l.map Prod.fst else l.map Prod.fst ++ [k] := by
  induction l with
  | nil => simp [insertGrouped]
  | cons hd tl ih =>
    obtain ⟨k', g⟩ := hd
    by_cases h : k' = k
    · simp [insertGrouped, h]
    · have hne : ¬k = k' := fun e => h e.symm
      simp only [insertGrouped, if_neg h, List.map_cons, ih, List.mem_cons]
      by_cases hm : k ∈ tl.map Prod.fst
      · simp [hm, hne]
      · simp [hm, hne]

theorem keysNodup_insertGrouped (l : List (String × List α)) (k : String) (a : α)
    (h : (l.map Prod.fst).Nodup) : ((insertGrouped k a l).map Prod.fst).Nodup := by
  rw [keys_insertGrouped]
  by_cases hk : k ∈ l.map Prod.fst
  · simpa [hk] using h
  · simp only [hk, if_false]
    rw [List.nodup_append]
    refine ⟨h, List.nodup_singleton k, ?_⟩
    intro a ha hb
    rw [List.mem_singleton] at hb
    subst hb
    exact hk ha

theorem keysNodup_foldl_insert (key : α → String) (l : List α) :
    ∀ acc : List (String × List α), (acc.map Prod.fst).Nodup →
      ((l.foldl (fun acc a => insertGrouped (key a) a acc) acc).map Prod.fst).Nodup := by
  induction l with
  | nil => intro acc h; simpa using h
  | cons hd tl ih =>
    intro acc h
    exact ih _ (keysNodup_insertGrouped _ _ _ h)

theorem keysNodup_groupByKey (key : α → String) (l : List α) :
    ((groupByKey key l).map Prod.fst).Nodup :=
  keysNodup_foldl_insert key l [] (by simp)

theorem mem_keys_foldl_insert (key : α → String) (l : List α) :
    ∀ (acc : List (String × List α)) (k : String),
      k ∈ (l.foldl (fun acc a => insertGrouped (key a) a acc) acc).map Prod.fst →
      k ∈ acc.map Prod.fst ∨ ∃ b ∈ l, key b = k := by
  induction l with
  | nil => intro acc k h; exact .inl (by simpa using h)
  | cons hd tl ih =>
    intro acc k h
    rcases ih _ _ h with h' | ⟨b, hb, hbk⟩
    · rw [keys_insertGrouped] at h'
      by_cases hm : key hd ∈ acc.map Prod.fst
      · rw [if_pos hm] at h'
        exact .inl h'
      · rw [if_neg hm] at h'
        rcases List.mem_append.mp h' with h'' | h''
        · exact .inl h''
        · exact .inr ⟨hd, List.mem_cons_self _ _, (List.mem_singleton.mp h'').symm⟩
    · exact .inr ⟨b, List.mem_cons_of_mem _ hb, hbk⟩

theorem getGroup_of_mem_nodup :
    ∀ l : List (String × List α), (l.map Prod.fst).Nodup →
      ∀ (k : String) (g : List α), (k, g) ∈ l → getGroup l k = g := by
  intro l
  induction l with
  | nil => simp
  | cons hd tl ih =>
    intro h k g hm
    obtain ⟨k', g'⟩ := hd
    rcases List.mem_cons.mp hm with he | ht
    · obtain ⟨rfl, rfl⟩ := Prod.mk.injEq .. ▸ he
      simp_all [getGroup]
    · have hk : k' ≠ k := by
        intro e
        subst e
        exact (List.nodup_cons.mp h).1
          (List.mem_map.mpr ⟨(k', g), ht, rfl⟩)
      simp only [getGroup, if_neg hk]
      exact ih (List.nodup_cons.mp h).2 _ _ ht

/-- Membership in the grouping: each group of `groupByKey` is exactly
the sublist of inputs bearing its key, and is non-empty. -/
theorem mem_groupByKey (key : α → String) (l : List α) (k : String) (g : List α)
    (h : (k, g) ∈ groupByKey key l) :
    g = l.filter (fun b => key b = k) ∧ g ≠ [] := by
  have hnodup := keysNodup_groupByKey key l
  have hg : getGroup (groupByKey key l) k = g := getGroup_of_mem_nodup _ hnodup _ _ h
  have hfold := getGroup_foldl_insert key l [] k
  have hfilter : g = l.filter (fun b => key b = k) := by
    rw [← hg]
    simpa [getGroup] using hfold
  refine ⟨hfilter, ?_⟩
  have hkmem : k ∈ (groupByKey key l).map Prod.fst := List.mem_map.mpr ⟨(k, g), h, rfl⟩
  rcases mem_keys_foldl_insert key l [] k hkmem with h0 | ⟨b, hb, hbk⟩
  · simp at h0
  · intro hnil
    have : b ∈ l.filter (fun b => key b = k) := List.mem_filter.mpr ⟨hb, by simp [hbk]⟩
    rw [← hfilter, hnil] at this
    simp at this

theorem pickHighest_foldl_mem (prio : α → Nat) :
    ∀ (rest : List α) (r : α),
      rest.foldl (fun best res => if prio res > prio best then res else best) r ∈ r :: rest := by
  intro rest
  induction rest with
  | nil => intro r; simp
  | cons hd tl ih =>
    intro r
    simp only [List.foldl_cons]
    have h := ih (if prio hd > prio r then hd else r)
    rcases List.mem_cons.mp h with h' | h'
    · rw [h']
      by_cases hc : prio hd > prio r <;> simp [hc]
    · exact List.mem_cons_of_mem _ (List.mem_cons_of_mem _ h')

theorem pickHighest_foldl_max (prio : α → Nat) :
    ∀ (rest : List α) (r x : α), x ∈ r :: rest →
      prio x ≤ prio (rest.foldl (fun best res => if prio res > prio best then res else best) r) := by
  intro rest
  induction rest with
  | nil =>
    intro r x hx
    simp only [List.mem_singleton] at hx
    subst hx
    simp
  | cons hd tl ih =>
    intro r x hx
    simp only [List.foldl_cons]
    have hr : prio r ≤ prio (if prio hd > prio r then hd else r) := by
      by_cases hc : prio hd > prio r
      · simp only [if_pos hc]
        omega
      · simp [hc]
    have hhd : prio hd ≤ prio (if prio hd > prio r then hd else r) := by
      by_cases hc : prio hd > prio r
      · simp [hc]
      · simp only [if_neg hc]
        omega
    have hacc := ih (if prio hd > prio r then hd else r)
    rcases List.mem_cons.mp hx with h' | h'
    · subst h'
      exact le_trans hr (hacc _ (List.mem_cons_self _ _))
    · rcases List.mem_cons.mp h' with h'' | h''
      · subst h''
        exact le_trans hhd (hacc _ (List.mem_cons_self _ _))
      · exact hacc _ (List.mem_cons_of_mem _ h'')

theorem pickHighest_mem (prio : α → Nat) (dflt : α) (g : List α) (h : g ≠ []) :
    pickHighest prio dflt g ∈ g := by
  cases g with
  | nil => exact absurd rfl h
  | cons r rest => exact pickHighest_foldl_mem prio rest r

theorem pickHighest_max (prio : α → Nat) (dflt : α) (g : List α) (x : α) (hx : x ∈ g) :
    prio x ≤ prio (pickHighest prio dflt g) := by
  cases g with
  | nil => simp at hx
  | cons r rest => exact pickHighest_foldl_max prio rest r x hx

/-- Soundness of the policy-A shape: every retained finding occurs in
the input and has maximal priority among the input findings sharing its
key. -/
theorem dedupA_sound (key : α → String) (prio : α → Nat) (dflt : α) (l : List α) (f : α)
    (hf : f ∈ (groupByKey key l).map (fun p => pickHighest prio dflt p.2)) :
    f ∈ l ∧ ∀ x ∈ l, key x = key f → prio x ≤ prio f := by
  rcases List.mem_map.mp hf with ⟨⟨k, g⟩, hkg, hpick⟩
  obtain ⟨hfilter, hne⟩ := mem_groupByKey key l k g hkg
  have hmem : f ∈ g := hpick ▸ pickHighest_mem prio dflt g hne
  have hfl : f ∈ l ∧ key f = k := by
    have := hfilter ▸ hmem
    have h' := List.mem_filter.mp this
    exact ⟨h'.1, by simpa using h'.2⟩
  refine ⟨hfl.1, fun x hx hkx => ?_⟩
  have hxg : x ∈ g := by
    rw [hfilter]
    exact List.mem_filter.mpr ⟨hx, by simp [hkx, hfl.2]⟩
  exact hpick ▸ pickHighest_max prio dflt g x hxg

/-- The retained findings of the policy-A shape have pairwise distinct
keys. -/
theorem dedupA_pairwise_keys (key : α → String) (prio : α → Nat) (dflt : α) (l : List α) :
    ((groupByKey key l).map (fun p => pickHighest prio dflt p.2)).Pairwise
      (fun f g => key f ≠ key g) := by
  have hnodup := keysNodup_groupByKey key l
  rw [List.Nodup, List.pairwise_map] at hnodup
  rw [List.pairwise_map]
  refine hnodup.imp_of_mem ?_
  intro p q hp hq hne
  obtain ⟨hpf, hpn⟩ := mem_groupByKey key l p.1 p.2 hp
  obtain ⟨hqf, hqn⟩ := mem_groupByKey key l q.1 q.2 hq
  have hkp : key (pickHighest prio dflt p.2) = p.1 := by
    have hm := pickHighest_mem prio dflt p.2 hpn
    have hm' : pickHighest prio dflt p.2 ∈ l.filter (fun b => key b = p.1) := by
      rw [← hpf]
      exact hm
    simpa using (List.mem_filter.mp hm').2
  have hkq : key (pickHighest prio dflt q.2) = q.1 := by
    have hm := pickHighest_mem prio dflt q.2 hqn
    have hm' : pickHighest prio dflt q.2 ∈ l.filter (fun b => key b = q.1) := by
      rw [← hqf]
      exact hm
    simpa using (List.mem_filter.mp hm').2
  rw [hkp, hkq]
  exact hne

/-- Characterization of one policy-B pass: a finding is kept iff it
passes the filter, its key is not in the initial seen set, and it is
the first filter-passing input bearing its key. -/
theorem mem_keepFirstByKey (key : α → String) (keep : α → Bool) :
    ∀ (l : List α) (seen : List String) (x : α),
      x ∈ keepFirstByKey key keep seen l ↔
        (keep x = true ∧ key x ∉ seen ∧
          l.find? (fun b => keep b && (key b == key x)) = some x) := by
  intro l
  induction l with
  | nil =>
    intro seen x
    simp [keepFirstByKey]
  | cons r rest ih =>
    intro seen x
    simp only [keepFirstByKey]
    by_cases hc : (keep r && !(seen.contains (key r))) = true
    · rw [if_pos hc]
      obtain ⟨hkr, hsr⟩ := (Bool.and_eq_true _ _).mp hc
      have hsetr : key r ∉ seen := by simpa using hsr
      by_cases hk : key r = key x
      · have hpr : (keep r && (key r == key x)) = true := by simp [hkr, hk]
        have hfind : List.find? (fun b => keep b && (key b == key x)) (r :: rest) = some r := by
          apply List.find?_cons_of_pos
          exact hpr
        rw [hfind]
        constructor
        · intro hmem
          rcases List.mem_cons.mp hmem with he | hmem2
          · subst he
            exact ⟨hkr, hk ▸ hsetr, rfl⟩
          · exfalso
            have h2 := (ih (seen ++ [key r]) x).mp hmem2
            exact h2.2.1 (by simp [hk])
        · rintro ⟨hkx, hnx, hsome⟩
          obtain rfl := Option.some.inj hsome
          exact List.mem_cons_self _ _
      · have hpr : ¬(keep r && (key r == key x)) = true := by simp [hk]
        have hfind : List.find? (fun b => keep b && (key b == key x)) (r :: rest)
            = List.find? (fun b => keep b && (key b == key x)) rest := by
          apply List.find?_cons_of_neg
          exact hpr
        rw [hfind]
        constructor
        · intro hmem
          rcases List.mem_cons.mp hmem with he | hmem2
          · exact absurd (he ▸ rfl) hk
          · have h2 := (ih _ x).mp hmem2
            refine ⟨h2.1, ?_, h2.2.2⟩
            intro hx
            exact h2.2.1 (List.mem_append.mpr (.inl hx))
        · rintro ⟨hkx, hnx, hsome⟩
          refine List.mem_cons_of_mem _ ((ih _ x).mpr ⟨hkx, ?_, hsome⟩)
          intro hx
          rcases List.mem_append.mp hx with h2 | h2
          · exact hnx h2
          · exact hk (List.mem_singleton.mp h2).symm
    · rw [if_neg hc]
      rw [ih]
      by_cases hpr : (keep r && (key r == key x)) = true
      · obtain ⟨hkr, hkeq⟩ := (Bool.and_eq_true _ _).mp hpr
        have hkeq2 : key r = key x := by simpa using hkeq
        have hcontains : seen.contains (key r) = true := by
          cases hb : seen.contains (key r) with
          | true => rfl
          | false =>
            have hnb : key r ∉ seen := by simpa using hb
            exact absurd (by simp [hkr, hnb]) hc
        have hxin : key x ∈ seen := by
          rw [← hkeq2]
          simpa using hcontains
        have hfind : List.find? (fun b => keep b && (key b == key x)) (r :: rest) = some r := by
          apply List.find?_cons_of_pos
          exact hpr
        rw [hfind]
        constructor
        · rintro ⟨_, hnx, _⟩
          exact absurd hxin hnx
        · rintro ⟨_, hnx, _⟩
          exact absurd hxin hnx
      · have hfind : List.find? (fun b => keep b && (key b == key x)) (r :: rest)
            = List.find? (fun b => keep b && (key b == key x)) rest := by
          apply List.find?_cons_of_neg
          exact hpr
        rw [hfind]

/-- The keys of the findings kept by a policy-B pass started with an
empty seen set are exactly the keys of the filter-passing inputs. -/
theorem mem_keys_keepFirstByKey (key : α → String) (keep : α → Bool) (l : List α) (k : String) :
    k ∈ (keepFirstByKey key keep [] l).map key ↔ ∃ b ∈ l, keep b = true ∧ key b = k := by
  constructor
  · intro h
    rcases List.mem_map.mp h with ⟨x, hx, rfl⟩
    have h2 := (mem_keepFirstByKey key keep l [] x).mp hx
    exact ⟨x, List.mem_of_find?_eq_some h2.2.2, h2.1, rfl⟩
  · rintro ⟨b, hb, hkeep, rfl⟩
    have hsome : (l.find? (fun c => keep c && (key c == key b))).isSome = true :=
      List.find?_isSome.mpr ⟨b, hb, by simp [hkeep]⟩
    rcases Option.isSome_iff_exists.mp hsome with ⟨a, ha⟩
    have hpa := List.find?_some ha
    obtain ⟨hka, hkab⟩ := (Bool.and_eq_true _ _).mp hpa
    have hkab' : key a = key b := by simpa using hkab
    refine List.mem_map.mpr ⟨a, ?_, hkab'⟩
    refine (mem_keepFirstByKey key keep l [] a).mpr ⟨hka, by simp, ?_⟩
    rw [show (fun c => keep c && (key c == key a)) = (fun c => keep c && (key c == key b)) by
      simp [hkab']]
    exact ha

theorem string_data_inj {a b : String} (h : a.data = b.data) : a = b := by
  cases a
  cases b
  exact congrArg String.mk h

theorem append_slash_inj :
    ∀ (l1 : List Char) (l2 m1 m2 : List Char), '/' ∉ l1 → '/' ∉ l2 →
      l1 ++ '/' :: m1 = l2 ++ '/' :: m2 → l1 = l2 ∧ m1 = m2 := by
  intro l1
  induction l1 with
  | nil =>
    intro l2 m1 m2 _ h2 h
    cases l2 with
    | nil => simpa using h
    | cons c t =>
      simp only [List.nil_append, List.cons_append, List.cons.injEq] at h
      exact absurd (h.1 ▸ List.mem_cons_self c t) h2
  | cons c t ih =>
    intro l2 m1 m2 h1 h2 h
    cases l2 with
    | nil =>
      simp only [List.nil_append, List.cons_append, List.cons.injEq] at h
      exact absurd (h.1.symm ▸ List.mem_cons_self c t) h1
    | cons d u =>
      simp only [List.cons_append, List.cons.injEq] at h
      have hrec := ih u m1 m2 (fun hm => h1 (List.mem_cons_of_mem _ hm))
        (fun hm => h2 (List.mem_cons_of_mem _ hm)) h.2
      exact ⟨by rw [h.1, hrec.1], hrec.2⟩

/-- The `kind/name` keys compared by `markManagedPods` determine the
kind and name pair whenever both kinds are slash-free. -/
theorem slashKey_inj (k1 n1 k2 n2 : String)
    (h1 : '/' ∉ k1.data) (h2 : '/' ∉ k2.data)
    (h : k1 ++ "/" ++ n1 = k2 ++ "/" ++ n2) : k1 = k2 ∧ n1 = n2 := by
  have hd : k1.data ++ '/' :: n1.data = k2.data ++ '/' :: n2.data := by
    have hx := congrArg String.data h
    simpa [String.data_append, show ("/" : String).data = ['/'] from rfl] using hx
  obtain ⟨ha, hb⟩ := append_slash_inj k1.data k2.data n1.data n2.data h1 h2 hd
  exact ⟨string_data_inj ha, string_data_inj hb⟩

theorem mem_markManagedPods (config : ClusterConfig) (ck k : String) :
    k ∈ markManagedPods config ck ↔
      ∃ p ∈ config.Items, p.Kind = "Pod" ∧ podKey p = k ∧
        ∃ ref ∈ p.Metadata.OwnerReferences, refKey ref = ck := by
  unfold markManagedPods
  rw [List.mem_filterMap]
  constructor
  · rintro ⟨p, hp, hf⟩
    by_cases hcond :
        (p.Kind == "Pod" && p.Metadata.OwnerReferences.any (fun ref => refKey ref == ck)) = true
    · rw [if_pos hcond] at hf
      obtain ⟨hk, hany⟩ := (Bool.and_eq_true _ _).mp hcond
      rcases List.any_eq_true.mp hany with ⟨ref, href, hrk⟩
      exact ⟨p, hp, by simpa using hk, Option.some.inj hf, ref, href, by simpa using hrk⟩
    · rw [if_neg hcond] at hf
      exact absurd hf (by simp)
  · rintro ⟨p, hp, hkind, hkey, ref, href, hrk⟩
    refine ⟨p, hp, ?_⟩
    have hcond :
        (p.Kind == "Pod" && p.Metadata.OwnerReferences.any (fun ref => refKey ref == ck)) = true := by
      rw [Bool.and_eq_true]
      exact ⟨by simp [hkind], List.any_eq_true.mpr ⟨ref, href, by simp [hrk]⟩⟩
    rw [if_pos hcond, hkey]

/-- Contents of the `processedPods` map: a pod key is marked iff some
controller-kind item of the document and some pod item of the document
carrying that key have a matching owner-reference `kind/name` key.
Namespaces appear nowhere in the matching condition. -/
theorem mem_processedPodKeys (config : ClusterConfig) (k : String) :
    k ∈ processedPodKeys config ↔
      ∃ c ∈ config.Items, isWorkloadKind c.Kind = true ∧
        ∃ p ∈ config.Items, p.Kind = "Pod" ∧ podKey p = k ∧
          ∃ ref ∈ p.Metadata.OwnerReferences, refKey ref = controllerKey c := by
  unfold processedPodKeys
  rw [List.mem_flatMap]
  constructor
  · rintro ⟨c, hc, hk⟩
    by_cases hw : isWorkloadKind c.Kind = true
    · rw [if_pos hw] at hk
      exact ⟨c, hc, hw, (mem_markManagedPods config _ k).mp hk⟩
    · rw [if_neg hw] at hk
      simp at hk
  · rintro ⟨c, hc, hw, hrest⟩
    refine ⟨c, hc, ?_⟩
    rw [if_pos hw]
    exact (mem_markManagedPods _ _ _).mpr hrest

theorem addPortInfo_isEmpty (w : HostNamespaceWorkload) (p : JValue) :
    (addPortInfo w p).HostPorts.isEmpty
      = (w.HostPorts.isEmpty && !(hasPositiveHostPort p)) := by
  unfold addPortInfo hasPositiveHostPort
  rcases p with _ | _ | _ | _ | _ | o <;> simp [JValue.asObj]
  rcases h : getNum o "hostPort" with _ | hp
  · simp
  · simp only
    by_cases hpos : hp > 0
    · by_cases hmem : hp ∈ w.HostPorts
      · have hfe : w.HostPorts.isEmpty = false := by
          cases hhp : w.HostPorts with
          | nil =>
            rw [hhp] at hmem
            simp at hmem
          | cons a t => rfl
        simp [hpos, hmem, hfe]
      · simp [hpos, hmem]
    · simp [hpos]

theorem foldl_addPortInfo_isEmpty (ports : List JValue) :
    ∀ w : HostNamespaceWorkload,
      ((ports.foldl addPortInfo w).HostPorts.isEmpty)
        = (w.HostPorts.isEmpty && !(ports.any hasPositiveHostPort)) := by
  induction ports with
  | nil => intro w; simp
  | cons p rest ih =>
    intro w
    simp only [List.foldl_cons, List.any_cons, ih, addPortInfo_isEmpty]
    cases hasPositiveHostPort p <;> cases w.HostPorts.isEmpty <;> simp

theorem addContainerInfo_isEmpty (w : HostNamespaceWorkload) (c : JValue) :
    (addContainerInfo w c).HostPorts.isEmpty
      = (w.HostPorts.isEmpty && !(containerHasPositiveHostPort c)) := by
  unfold addContainerInfo containerHasPositiveHostPort
  rcases c with _ | _ | _ | _ | _ | o <;> simp [JValue.asObj]
  rcases harr : getArr o "ports" with _ | ports
  · simp only [getArrD, harr, Option.getD_none, List.any_nil, Bool.not_false, Bool.and_true]
    by_cases hcond : getStrD o "name" ∉ w.ContainerNames ∧ ¬getStrD o "name" = ""
    · rw [if_pos hcond]
    · rw [if_neg hcond]
  · simp only [getArrD, harr, Option.getD_some, foldl_addPortInfo_isEmpty]
    by_cases hcond : getStrD o "name" ∉ w.ContainerNames ∧ ¬getStrD o "name" = ""
    · rw [if_pos hcond]
    · rw [if_neg hcond]

theorem checkContainersForHostPorts_isEmpty (cs : List JValue) :
    ∀ w : HostNamespaceWorkload,
      ((checkContainersForHostPorts cs w).HostPorts.isEmpty)
        = (w.HostPorts.isEmpty && !(cs.any containerHasPositiveHostPort)) := by
  induction cs with
  | nil => intro w; simp [checkContainersForHostPorts]
  | cons c rest ih =>
    intro w
    simp only [checkContainersForHostPorts, List.foldl_cons, List.any_cons] at *
    rw [ih, addContainerInfo_isEmpty]
    cases containerHasPositiveHostPort c <;> cases w.HostPorts.isEmpty <;> simp

/-- `match`-vs-default normalization: a missing container array behaves
as the empty one. -/
theorem checkContainers_getArrD (spec : List (String × JValue)) (k : String)
    (w : HostNamespaceWorkload) :
    (match getArr spec k with
     | some cs => checkContainersForHostPorts cs w
     | none => w) = checkContainersForHostPorts (getArrD spec k) w := by
  cases h : getArr spec k <;> simp [getArrD, h, checkContainersForHostPorts]

theorem mountMatchesReadOnly_iff (vm : JValue) (vn : String) :
    mountMatchesReadOnly vm vn = true ↔
      ∃ mount, vm = JValue.obj mount ∧ getStrD mount "name" = vn ∧
        getBool mount "readOnly" = some true := by
  rcases vm with _ | _ | _ | _ | _ | m <;> simp [mountMatchesReadOnly, JValue.asObj]

theorem containerMountsVolumeReadOnly_iff (c : JValue) (vn : String) :
    containerMountsVolumeReadOnly c vn = true ↔
      ∃ container, c = JValue.obj container ∧
        ∃ vm ∈ getArrD container "volumeMounts", mountMatchesReadOnly vm vn = true := by
  rcases c with _ | _ | _ | _ | _ | o <;> simp [containerMountsVolumeReadOnly, JValue.asObj]
  rcases h : getArr o "volumeMounts" with _ | vms
  · simp [getArrD, h]
  · simp [getArrD, h, List.any_eq_true]

theorem volumeIsReadOnly_any (spec : List (String × JValue)) (vn : String) :
    volumeIsReadOnly spec vn = true ↔
      ∃ c ∈ getArrD spec "containers" ++ getArrD spec "initContainers",
        containerMountsVolumeReadOnly c vn = true := by
  unfold volumeIsReadOnly checkContainersForReadOnlyMount
  rcases h1 : getArr spec "containers" with _ | cs <;>
    rcases h2 : getArr spec "initContainers" with _ | ics <;>
      simp [getArrD, h1, h2, List.any_eq_true, List.mem_append, or_and_right, exists_or]

/-- Shape of any finding emitted by `checkPodForHostPathVolumes`: the
two parallel sequences are projections of the same non-empty recorded
entry list, so corresponding indices describe the same volume. -/
theorem checkPodForHostPathVolumes_shape (item : Item) (nm namespc kind : String)
    (f : HostPathVolume) (hf : f ∈ checkPodForHostPathVolumes item nm namespc kind) :
    ∃ spec, item.Spec = JValue.obj spec ∧
      hostPathEntries (getArrD spec "volumes") ≠ [] ∧
      f = { Name := nm, Namespace := namespc, Kind := kind,
            HostPaths := (hostPathEntries (getArrD spec "volumes")).map Prod.snd,
            ReadOnly := (hostPathEntries (getArrD spec "volumes")).map
              (fun e => volumeIsReadOnly spec e.1) } := by
  unfold checkPodForHostPathVolumes at hf
  rcases hS : item.Spec with _ | _ | _ | _ | _ | spec <;> rw [hS] at hf <;>
    simp only [JValue.asObj] at hf
  · exact absurd hf (by simp)
  · exact absurd hf (by simp)
  · exact absurd hf (by simp)
  · exact absurd hf (by simp)
  · exact absurd hf (by simp)
  · by_cases he : (hostPathEntries (getArrD spec "volumes")).isEmpty = true
    · rw [if_pos he] at hf
      exact absurd hf (by simp)
    · rw [if_neg he] at hf
      refine ⟨spec, rfl, ?_, List.mem_singleton.mp hf⟩
      intro hnil
      exact he (by rw [hnil]; rfl)

theorem mem_of_mem_keepFirstByKey (key : α → String) (keep : α → Bool)
    (seen : List String) (l : List α) (x : α)
    (h : x ∈ keepFirstByKey key keep seen l) : x ∈ l :=
  List.mem_of_find?_eq_some ((mem_keepFirstByKey key keep l seen x).mp h).2.2

theorem mem_checkWorkloadForHostPathVolumes (item : Item) (f : HostPathVolume)
    (hf : f ∈ checkWorkloadForHostPathVolumes item) :
    ∃ (it2 : Item) (nm namespc kind : String), f ∈ checkPodForHostPathVolumes it2 nm namespc kind := by
  unfold checkWorkloadForHostPathVolumes at hf
  rcases hS : item.Spec with _ | _ | _ | _ | _ | spec <;> rw [hS] at hf <;>
    simp only [JValue.asObj] at hf
  · exact absurd hf (by simp)
  · exact absurd hf (by simp)
  · exact absurd hf (by simp)
  · exact absurd hf (by simp)
  · exact absurd hf (by simp)
  · rcases hr : resolvePodSpec item.Kind spec with _ | ps <;> rw [hr] at hf
    · exact absurd hf (by simp)
    · exact ⟨_, _, _, _, hf⟩

/-- Every finding returned by `GetHostPathVolumes` originates from some
invocation of `checkPodForHostPathVolumes`. -/
theorem mem_GetHostPathVolumes_source (config : ClusterConfig) (f : HostPathVolume)
    (hf : f ∈ GetHostPathVolumes config) :
    ∃ (it2 : Item) (nm namespc kind : String), f ∈ checkPodForHostPathVolumes it2 nm namespc kind := by
  unfold GetHostPathVolumes deduplicateHostPathWorkloads at hf
  have hin : f ∈ config.Items.flatMap (fun item =>
      if isWorkloadKind item.Kind then checkWorkloadForHostPathVolumes item else []) ++
      config.Items.flatMap (hostPathPodContribution config) := by
    rcases List.mem_append.mp hf with h | h
    · exact mem_of_mem_keepFirstByKey _ _ _ _ _ h
    · exact mem_of_mem_keepFirstByKey _ _ _ _ _ h
  rcases List.mem_append.mp hin with h | h
  · rcases List.mem_flatMap.mp h with ⟨item, _, hfi⟩
    by_cases hw : isWorkloadKind item.Kind = true
    · rw [if_pos hw] at hfi
      exact mem_checkWorkloadForHostPathVolumes item f hfi
    · rw [if_neg hw] at hfi
      exact absurd hfi (by simp)
  · rcases List.mem_flatMap.mp h with ⟨item, _, hfi⟩
    unfold hostPathPodContribution at hfi
    by_cases hc : (item.Kind == "Pod" && !((processedPodKeys config).contains (podKey item))) = true
    · rw [if_pos hc] at hfi
      exact ⟨_, _, _, _, hfi⟩
    · rw [if_neg hc] at hfi
      exact absurd hfi (by simp)

/-- Computation of `checkPodForHostNamespaces` on an object spec, in
terms of the accumulation folds. -/
theorem checkPodForHostNamespaces_obj (spec : List (String × JValue)) (item : Item)
    (nm namespc kind : String) (hS : item.Spec = JValue.obj spec) :
    checkPodForHostNamespaces item nm namespc kind =
      (if (getBool spec "hostPID" == some true || getBool spec "hostIPC" == some true ||
           getBool spec "hostNetwork" == some true)
          || !(checkContainersForHostPorts (getArrD spec "initContainers")
                (checkContainersForHostPorts (getArrD spec "containers")
                  { Name := nm, Namespace := namespc, Kind := kind,
                    HostPID := getBool spec "hostPID" == some true,
                    HostIPC := getBool spec "hostIPC" == some true,
                    HostNetwork := getBool spec "hostNetwork" == some true })).HostPorts.isEmpty
       then [checkContainersForHostPorts (getArrD spec "initContainers")
              (checkContainersForHostPorts (getArrD spec "containers")
                { Name := nm, Namespace := namespc, Kind := kind,
                  HostPID := getBool spec "hostPID" == some true,
                  HostIPC := getBool spec "hostIPC" == some true,
                  HostNetwork := getBool spec "hostNetwork" == some true })]
       else []) := by
  unfold checkPodForHostNamespaces
  rw [hS]
  simp only [JValue.asObj]
  rw [checkContainers_getArrD, checkContainers_getArrD]

theorem hostNamespaceCondition_iff (spec : List (String × JValue))
    (w0 : HostNamespaceWorkload) (h0 : w0.HostPorts = []) :
    (((getBool spec "hostPID" == some true || getBool spec "hostIPC" == some true ||
       getBool spec "hostNetwork" == some true)
      || !(checkContainersForHostPorts (getArrD spec "initContainers")
            (checkContainersForHostPorts (getArrD spec "containers") w0)).HostPorts.isEmpty) = true)
    ↔ (getBool spec "hostPID" = some true ∨ getBool spec "hostIPC" = some true ∨
       getBool spec "hostNetwork" = some true ∨
       ∃ c ∈ getArrD spec "containers" ++ getArrD spec "initContainers",
         containerHasPositiveHostPort c = true) := by
  rw [checkContainersForHostPorts_isEmpty, checkContainersForHostPorts_isEmpty, h0]
  simp [List.any_eq_true, List.mem_append, or_and_right, exists_or, or_assoc]

/-- C2: after policy-A deduplication (privileged and capability
detection) the returned collection has at most one finding per
`(namespace, container-name)` pair, and each retained finding occurs in
the input and carries maximal kind priority among the input findings
sharing its pair, under the fixed order Deployment(7) > StatefulSet(6)
> DaemonSet(5) > CronJob(4) > Job(3) > ReplicaSet(2) > Pod(1); hence a
workload represented both as a controller and as its managed pods
yields one finding per pair, not two. -/
theorem dedupA_unique_and_highest (results : List PrivilegedContainer)
    (cresults : List CapabilityContainer) :
    (deduplicatePrivilegedResults results).Pairwise
      (fun f g => ¬(f.Namespace = g.Namespace ∧ f.Name = g.Name))
    ∧ (∀ f ∈ deduplicatePrivilegedResults results, f ∈ results ∧
        ∀ g ∈ results, g.Namespace = f.Namespace → g.Name = f.Name →
          kindPriority g.Kind ≤ kindPriority f.Kind)
    ∧ (deduplicateCapabilityResults cresults).Pairwise
      (fun f g => ¬(f.Namespace = g.Namespace ∧ f.Name = g.Name))
    ∧ (∀ f ∈ deduplicateCapabilityResults cresults, f ∈ cresults ∧
        ∀ g ∈ cresults, g.Namespace = f.Namespace → g.Name = f.Name →
          kindPriority g.Kind ≤ kindPriority f.Kind) := by
  refine ⟨?_, ?_, ?_, ?_⟩
  · have hp := dedupA_pairwise_keys (fun r : PrivilegedContainer => r.Namespace ++ "|" ++ r.Name)
      (fun r => kindPriority r.Kind) {} results
    unfold deduplicatePrivilegedResults findHighestPriorityResource
    refine hp.imp ?_
    intro f g hne hpair
    exact hne (by rw [hpair.1, hpair.2])
  · intro f hf
    have hs := dedupA_sound (fun r : PrivilegedContainer => r.Namespace ++ "|" ++ r.Name)
      (fun r => kindPriority r.Kind) {} results f (by
        unfold deduplicatePrivilegedResults findHighestPriorityResource at hf
        exact hf)
    exact ⟨hs.1, fun g hg h1 h2 => hs.2 g hg (by
      show g.Namespace ++ "|" ++ g.Name = f.Namespace ++ "|" ++ f.Name
      rw [h1, h2])⟩
  · have hp := dedupA_pairwise_keys (fun r : CapabilityContainer => r.Namespace ++ "|" ++ r.Name)
      (fun r => kindPriority r.Kind) {} cresults
    unfold deduplicateCapabilityResults findHighestPriorityCapabilityResource
    refine hp.imp ?_
    intro f g hne hpair
    exact hne (by rw [hpair.1, hpair.2])
  · intro f hf
    have hs := dedupA_sound (fun r : CapabilityContainer => r.Namespace ++ "|" ++ r.Name)
      (fun r => kindPriority r.Kind) {} cresults f (by
        unfold deduplicateCapabilityResults findHighestPriorityCapabilityResource at hf
        exact hf)
    exact ⟨hs.1, fun g hg h1 h2 => hs.2 g hg (by
      show g.Namespace ++ "|" ++ g.Name = f.Namespace ++ "|" ++ f.Name
      rw [h1, h2])⟩

/-- C3 (amended): policy B keeps, among findings whose kind is not
`Pod`, exactly the first finding for each distinct
`namespace/kind/name` key; it keeps a Pod-kind finding iff its name
starts with one of the four control-plane prefixes, no non-Pod finding
shares its key, and it is the first such Pod finding with its key.
Every other Pod-kind finding is discarded. -/
theorem policyB_membership_charn :
    (∀ (l : List HostNamespaceWorkload) (x : HostNamespaceWorkload),
      x ∈ deduplicateHostNamespaceWorkloads l ↔
        ((x.Kind ≠ "Pod"
          ∧ l.find? (fun b => b.Kind != "Pod"
              && (hostNamespaceWorkloadKey b == hostNamespaceWorkloadKey x)) = some x)
         ∨ (x.Kind = "Pod" ∧ isControlPlanePodName x.Name = true
            ∧ (¬∃ b ∈ l, b.Kind ≠ "Pod"
                ∧ hostNamespaceWorkloadKey b = hostNamespaceWorkloadKey x)
            ∧ l.find? (fun b => (b.Kind == "Pod" && isControlPlanePodName b.Name)
                && (hostNamespaceWorkloadKey b == hostNamespaceWorkloadKey x)) = some x)))
    ∧ (∀ (l : List HostPathVolume) (x : HostPathVolume),
      x ∈ deduplicateHostPathWorkloads l ↔
        ((x.Kind ≠ "Pod"
          ∧ l.find? (fun b => b.Kind != "Pod"
              && (hostPathVolumeKey b == hostPathVolumeKey x)) = some x)
         ∨ (x.Kind = "Pod" ∧ isControlPlanePodName x.Name = true
            ∧ (¬∃ b ∈ l, b.Kind ≠ "Pod" ∧ hostPathVolumeKey b = hostPathVolumeKey x)
            ∧ l.find? (fun b => (b.Kind == "Pod" && isControlPlanePodName b.Name)
                && (hostPathVolumeKey b == hostPathVolumeKey x)) = some x))) := by
  constructor
  · intro l x
    have hd : deduplicateHostNamespaceWorkloads l
        = keepFirstByKey hostNamespaceWorkloadKey (fun r => r.Kind != "Pod") [] l ++
          keepFirstByKey hostNamespaceWorkloadKey
            (fun r => r.Kind == "Pod" && isControlPlanePodName r.Name)
            ((keepFirstByKey hostNamespaceWorkloadKey (fun r => r.Kind != "Pod") [] l).map
              hostNamespaceWorkloadKey) l := rfl
    rw [hd, List.mem_append, mem_keepFirstByKey, mem_keepFirstByKey, mem_keys_keepFirstByKey]
    constructor
    · rintro (⟨hkeep, _, hfind⟩ | ⟨hkeep, hnin, hfind⟩)
      · exact .inl ⟨by simpa using hkeep, hfind⟩
      · obtain ⟨hpod, hcp⟩ := (Bool.and_eq_true _ _).mp hkeep
        refine .inr ⟨by simpa using hpod, hcp, ?_, hfind⟩
        intro hex
        obtain ⟨b, hb, hbk, hbkey⟩ := hex
        exact hnin ⟨b, hb, by simpa using hbk, hbkey⟩
    · rintro (⟨hkind, hfind⟩ | ⟨hpod2, hcp, hnex, hfind⟩)
      · exact .inl ⟨by simpa using hkind, by simp, hfind⟩
      · refine .inr ⟨by simp [hpod2, hcp], ?_, hfind⟩
        intro hin
        obtain ⟨b, hb, hbk, hbkey⟩ := hin
        exact hnex ⟨b, hb, by simpa using hbk, hbkey⟩
  · intro l x
    have hd : deduplicateHostPathWorkloads l
        = keepFirstByKey hostPathVolumeKey (fun r => r.Kind != "Pod") [] l ++
          keepFirstByKey hostPathVolumeKey
            (fun r => r.Kind == "Pod" && isControlPlanePodName r.Name)
            ((keepFirstByKey hostPathVolumeKey (fun r => r.Kind != "Pod") [] l).map
              hostPathVolumeKey) l := rfl
    rw [hd, List.mem_append, mem_keepFirstByKey, mem_keepFirstByKey, mem_keys_keepFirstByKey]
    constructor
    · rintro (⟨hkeep, _, hfind⟩ | ⟨hkeep, hnin, hfind⟩)
      · exact .inl ⟨by simpa using hkeep, hfind⟩
      · obtain ⟨hpod, hcp⟩ := (Bool.and_eq_true _ _).mp hkeep
        refine .inr ⟨by simpa using hpod, hcp, ?_, hfind⟩
        intro hex
        obtain ⟨b, hb, hbk, hbkey⟩ := hex
        exact hnin ⟨b, hb, by simpa using hbk, hbkey⟩
    · rintro (⟨hkind, hfind⟩ | ⟨hpod2, hcp, hnex, hfind⟩)
      · exact .inl ⟨by simpa using hkind, by simp, hfind⟩
      · refine .inr ⟨by simp [hpod2, hcp], ?_, hfind⟩
        intro hin
        obtain ⟨b, hb, hbk, hbkey⟩ := hin
        exact hnex ⟨b, hb, by simpa using hbk, hbkey⟩

/-- C5: a recorded host-path volume's read-only flag is `true` iff some
main or init container of the pod specification has a `volumeMounts`
entry whose name equals the volume's name and whose `readOnly` is
`true`; and every emitted finding's `ReadOnly` sequence is exactly
the per-volume flag applied to the recorded entry list (whose second
projections are `HostPaths`). -/
theorem hostPathReadOnly_iff :
    (∀ (spec : List (String × JValue)) (volumeName : String),
      volumeIsReadOnly spec volumeName = true ↔
        mountedReadOnlyInSomeContainer spec volumeName)
    ∧ (∀ (item : Item) (nm namespc kind : String) (f : HostPathVolume),
        f ∈ checkPodForHostPathVolumes item nm namespc kind →
        ∃ spec, item.Spec = JValue.obj spec ∧
          f.HostPaths = (hostPathEntries (getArrD spec "volumes")).map Prod.snd ∧
          f.ReadOnly = (hostPathEntries (getArrD spec "volumes")).map
            (fun e => volumeIsReadOnly spec e.1)) := by
  constructor
  · intro spec volumeName
    rw [volumeIsReadOnly_any]
    unfold mountedReadOnlyInSomeContainer
    simp only [containerMountsVolumeReadOnly_iff, mountMatchesReadOnly_iff]
  · intro item nm namespc kind f hf
    obtain ⟨spec, hS, _, rfl⟩ := checkPodForHostPathVolumes_shape item nm namespc kind f hf
    exact ⟨spec, hS, rfl, rfl⟩

/-- C6: per processed workload or standalone pod, the host-namespace
check emits at most one finding; it emits exactly one iff a pod-level
host flag is explicitly `true` or some container declares a positive
host port; and the emitted finding is exactly the container-name /
host-port accumulation over main and init containers, performed
independently of the flag values. -/
theorem checkPodForHostNamespaces_emits_iff (item : Item) (nm namespc kind : String) :
    (checkPodForHostNamespaces item nm namespc kind).length ≤ 1
    ∧ ((checkPodForHostNamespaces item nm namespc kind).length = 1 ↔
        hostFlagsOrPortsPresent item)
    ∧ (∀ w ∈ checkPodForHostNamespaces item nm namespc kind,
        ∃ spec, item.Spec = JValue.obj spec ∧
          w = checkContainersForHostPorts (getArrD spec "initContainers")
                (checkContainersForHostPorts (getArrD spec "containers")
                  { Name := nm, Namespace := namespc, Kind := kind,
                    HostPID := getBool spec "hostPID" == some true,
                    HostIPC := getBool spec "hostIPC" == some true,
                    HostNetwork := getBool spec "hostNetwork" == some true })) := by
  rcases hS : item.Spec with _ | _ | _ | _ | _ | spec
  case null =>
    have hout : checkPodForHostNamespaces item nm namespc kind = [] := by
      unfold checkPodForHostNamespaces
      rw [hS]
      rfl
    rw [hout]
    exact ⟨by simp, by simp [hostFlagsOrPortsPresent, hS], by simp⟩
  case bool b =>
    have hout : checkPodForHostNamespaces item nm namespc kind = [] := by
      unfold checkPodForHostNamespaces
      rw [hS]
      rfl
    rw [hout]
    exact ⟨by simp, by simp [hostFlagsOrPortsPresent, hS], by simp⟩
  case num n =>
    have hout : checkPodForHostNamespaces item nm namespc kind = [] := by
      unfold checkPodForHostNamespaces
      rw [hS]
      rfl
    rw [hout]
    exact ⟨by simp, by simp [hostFlagsOrPortsPresent, hS], by simp⟩
  case str s =>
    have hout : checkPodForHostNamespaces item nm namespc kind = [] := by
      unfold checkPodForHostNamespaces
      rw [hS]
      rfl
    rw [hout]
    exact ⟨by simp, by simp [hostFlagsOrPortsPresent, hS], by simp⟩
  case arr a =>
    have hout : checkPodForHostNamespaces item nm namespc kind = [] := by
      unfold checkPodForHostNamespaces
      rw [hS]
      rfl
    rw [hout]
    exact ⟨by simp, by simp [hostFlagsOrPortsPresent, hS], by simp⟩
  case obj =>
    rw [checkPodForHostNamespaces_obj spec item nm namespc kind hS]
    by_cases hc : (((getBool spec "hostPID" == some true || getBool spec "hostIPC" == some true ||
        getBool spec "hostNetwork" == some true)
        || !(checkContainersForHostPorts (getArrD spec "initContainers")
              (checkContainersForHostPorts (getArrD spec "containers")
                { Name := nm, Namespace := namespc, Kind := kind,
                  HostPID := getBool spec "hostPID" == some true,
                  HostIPC := getBool spec "hostIPC" == some true,
                  HostNetwork := getBool spec "hostNetwork" == some true })).HostPorts.isEmpty)
        = true)
    · rw [if_pos hc]
      refine ⟨by simp, ?_, ?_⟩
      · constructor
        · intro _
          exact ⟨spec, hS, (hostNamespaceCondition_iff spec _ rfl).mp hc⟩
        · intro _
          rfl
      · intro w hw
        exact ⟨spec, rfl, (List.mem_singleton.mp hw)⟩
    · rw [if_neg hc]
      refine ⟨by simp, ?_, by simp⟩
      constructor
      · intro h0
        simp at h0
      · intro hpred
        obtain ⟨spec2, hS2, hflags⟩ := hpred
        rw [hS] at hS2
        obtain rfl : spec = spec2 := by
          injection hS2
        exact absurd ((hostNamespaceCondition_iff spec _ rfl).mpr hflags) hc

/-- C7 (amended): for a container whose
`securityContext.capabilities.add` is a non-empty list, the capability
check emits exactly one finding iff some entry of `add` is a string,
and the emitted finding's `Capabilities` is exactly the sequence of
string entries of `add` (non-string entries are silently dropped; a
non-empty `add` with no string entry yields no finding). -/
theorem capabilityCheck_strings (c : JValue) (ownerName namespc kind : String)
    (container sc caps : List (String × JValue)) (add : List JValue)
    (hc : c = JValue.obj container)
    (hsc : getObj container "securityContext" = some sc)
    (hcaps : getObj sc "capabilities" = some caps)
    (hadd : getArr caps "add" = some add)
    (hne : add ≠ []) :
    (add.filterMap JValue.asStr ≠ [] →
      capabilityContainerCheck c ownerName namespc kind
        = [{ Name := getStrD container "name", Namespace := namespc, Kind := kind,
             PodName := ownerName, Capabilities := add.filterMap JValue.asStr }])
    ∧ (add.filterMap JValue.asStr = [] →
        capabilityContainerCheck c ownerName namespc kind = [])
    ∧ (∀ s : String, s ∈ add.filterMap JValue.asStr ↔ JValue.str s ∈ add) := by
  subst hc
  unfold capabilityContainerCheck
  simp only [JValue.asObj]
  simp only [hsc, hcaps, hadd]
  have hie : add.isEmpty = false := by
    cases add with
    | nil => exact absurd rfl hne
    | cons a t => rfl
  rw [if_neg (by simp [hie])]
  refine ⟨fun hfm => ?_, fun hfm => ?_, fun s => ?_⟩
  · rw [if_neg ?_]
    intro hemp
    rw [List.isEmpty_iff] at hemp
    exact hfm hemp
  · rw [if_pos (by rw [List.isEmpty_iff]; exact hfm)]
  · rw [List.mem_filterMap]
    constructor
    · rintro ⟨v, hv, hvs⟩
      rcases v with _ | _ | _ | s2 | _ | _ <;> simp [JValue.asStr] at hvs
      rw [← hvs]
      exact hv
    · intro hv
      exact ⟨JValue.str s, hv, rfl⟩

/-- C10: marking a pod as represented compares only the owner
reference's `kind/name` key with each controller's `kind/name` key —
namespaces are never compared — so a controller in any namespace
suppresses the standalone second-pass analysis of any pod (in any
other namespace) whose owner-reference list names its kind and name,
for both `GetHostNamespaceWorkloads` and `GetHostPathVolumes`. -/
theorem crossNamespace_suppression (config : ClusterConfig) (c item : Item)
    (hc : c ∈ config.Items) (hw : isWorkloadKind c.Kind = true)
    (hitem : item ∈ config.Items) (hpod : item.Kind = "Pod")
    (href : ∃ ref ∈ item.Metadata.OwnerReferences,
      ref.Kind = c.Kind ∧ ref.Name = c.Metadata.Name) :
    podKey item ∈ processedPodKeys config
    ∧ hostNamespacePodContribution config item = []
    ∧ hostPathPodContribution config item = [] := by
  obtain ⟨ref, hrefmem, hK, hN⟩ := href
  have hmark : podKey item ∈ processedPodKeys config :=
    (mem_processedPodKeys config _).mpr
      ⟨c, hc, hw, item, hitem, hpod, rfl, ref, hrefmem, by
        unfold refKey controllerKey
        rw [hK, hN]⟩
  have hcontains : (processedPodKeys config).contains (podKey item) = true := by
    simpa using hmark
  refine ⟨hmark, ?_, ?_⟩
  · unfold hostNamespacePodContribution
    rw [if_neg (by simp [hmark])]
  · unfold hostPathPodContribution
    rw [if_neg (by simp [hmark])]

theorem isWorkloadKind_slashFree (k : String) (h : isWorkloadKind k = true) :
    '/' ∉ k.data := by
  unfold isWorkloadKind at h
  simp only [Bool.or_eq_true, beq_iff_eq] at h
  rcases h with ((((rfl | rfl) | rfl) | rfl) | rfl) | rfl <;> decide

/-- C1 (amended): in the second pass, `GetPrivilegedContainers` and
`GetCapabilityContainers` skip a Pod exactly when some owner reference
has one of the six controller kinds — whether that controller is
present in the document is never consulted — while
`GetHostNamespaceWorkloads` and `GetHostPathVolumes` skip a Pod exactly
when some controller-kind item present in the document matches an owner
reference's kind and name (stated under slash-free reference kinds and
uniqueness of the pod's namespace/name key among Pod records). -/
theorem secondPass_gating (config : ClusterConfig) (item : Item)
    (hmem : item ∈ config.Items) (hpod : item.Kind = "Pod")
    (hrefs : ∀ ref ∈ item.Metadata.OwnerReferences, '/' ∉ ref.Kind.data)
    (huniq : ∀ q ∈ config.Items, q.Kind = "Pod" → podKey q = podKey item →
      q.Metadata.OwnerReferences = item.Metadata.OwnerReferences) :
    ((ownedByWorkloadKind item = true) ↔
      ∃ ref ∈ item.Metadata.OwnerReferences, isWorkloadKind ref.Kind = true)
    ∧ (ownedByWorkloadKind item = true →
        privilegedPodContribution item = [] ∧ capabilityPodContribution item = [])
    ∧ (ownedByWorkloadKind item = false →
        privilegedPodContribution item
          = processPrivilegedContainersInPod item item.Metadata.Name item.Metadata.Namespace item.Kind
        ∧ capabilityPodContribution item
          = processCapabilityContainersInPod item item.Metadata.Name item.Metadata.Namespace item.Kind)
    ∧ ((podKey item ∈ processedPodKeys config) ↔
        ∃ c ∈ config.Items, isWorkloadKind c.Kind = true ∧
          ∃ ref ∈ item.Metadata.OwnerReferences, ref.Kind = c.Kind ∧ ref.Name = c.Metadata.Name)
    ∧ (podKey item ∈ processedPodKeys config →
        hostNamespacePodContribution config item = [] ∧ hostPathPodContribution config item = [])
    ∧ (podKey item ∉ processedPodKeys config →
        hostNamespacePodContribution config item
          = checkPodForHostNamespaces item item.Metadata.Name item.Metadata.Namespace item.Kind
        ∧ hostPathPodContribution config item
          = checkPodForHostPathVolumes item item.Metadata.Name item.Metadata.Namespace item.Kind) := by
  refine ⟨?_, ?_, ?_, ?_, ?_, ?_⟩
  · unfold ownedByWorkloadKind
    rw [List.any_eq_true]
  · intro howned
    constructor
    · unfold privilegedPodContribution
      rw [if_neg (by simp [howned])]
    · unfold capabilityPodContribution
      rw [if_neg (by simp [howned])]
  · intro howned
    constructor
    · unfold privilegedPodContribution
      rw [if_pos (by simp [hpod, howned])]
    · unfold capabilityPodContribution
      rw [if_pos (by simp [hpod, howned])]
  · constructor
    · intro hmark
      obtain ⟨c, hc, hw, p, hpmem, hppod, hpkey, ref, href, hrk⟩ :=
        (mem_processedPodKeys config _).mp hmark
      have hre : p.Metadata.OwnerReferences = item.Metadata.OwnerReferences :=
        huniq p hpmem hppod hpkey
      rw [hre] at href
      have hsf := hrefs ref href
      have hcf := isWorkloadKind_slashFree c.Kind hw
      obtain ⟨hk, hn⟩ := slashKey_inj ref.Kind ref.Name c.Kind c.Metadata.Name hsf hcf hrk
      exact ⟨c, hc, hw, ref, href, hk, hn⟩
    · rintro ⟨c, hc, hw, ref, href, hk, hn⟩
      refine (mem_processedPodKeys config _).mpr
        ⟨c, hc, hw, item, hmem, hpod, rfl, ref, href, ?_⟩
      unfold refKey controllerKey
      rw [hk, hn]
  · intro hmark
    constructor
    · unfold hostNamespacePodContribution
      rw [if_neg (by simp [hmark])]
    · unfold hostPathPodContribution
      rw [if_neg (by simp [hmark])]
  · intro hunmark
    constructor
    · unfold hostNamespacePodContribution
      rw [if_pos (by simp [hpod, hunmark])]
    · unfold hostPathPodContribution
      rw [if_pos (by simp [hpod, hunmark])]

/-- C4 (amended): for a CronJob whose `spec.jobTemplate.spec` is
missing or malformed, pod-template resolution silently falls back to
the CronJob's own spec and resolves `template.spec` directly there —
so such a CronJob with a direct `template.spec` subtree IS analyzed —
and only when that direct descent also fails do all four detectors
contribute no findings for the record. -/
theorem cronJobTemplate_fallback (o : List (String × JValue)) (item : Item)
    (hk : item.Kind = "CronJob") (hS : item.Spec = JValue.obj o)
    (hjt : (getObj o "jobTemplate").bind (fun jt => getObj jt "spec") = none) :
    resolvePodSpec item.Kind o = (getObj o "template").bind (fun t => getObj t "spec")
    ∧ ((getObj o "template").bind (fun t => getObj t "spec") = none →
        processPrivilegedContainersInWorkload item = []
        ∧ processCapabilityContainersInWorkload item = []
        ∧ checkWorkloadForHostNamespaces item = []
        ∧ checkWorkloadForHostPathVolumes item = []) := by
  have hres : resolvePodSpec item.Kind o = (getObj o "template").bind (fun t => getObj t "spec") := by
    unfold resolvePodSpec
    rw [hk]
    rcases hj : getObj o "jobTemplate" with _ | jt
    · simp only [hj]
      rcases hm : getObj o "template" with _ | t <;> simp [hm]
    · rw [hj] at hjt
      simp at hjt
      simp only [hj, hjt]
      rcases hm : getObj o "template" with _ | t <;> simp [hm]
  refine ⟨hres, fun hnone => ?_⟩
  have hres2 : resolvePodSpec item.Kind o = none := by rw [hres, hnone]
  refine ⟨?_, ?_, ?_, ?_⟩
  · unfold processPrivilegedContainersInWorkload
    rw [hS]
    simp only [JValue.asObj, hres2]
  · unfold processCapabilityContainersInWorkload
    rw [hS]
    simp only [JValue.asObj, hres2]
  · unfold checkWorkloadForHostNamespaces
    rw [hS]
    simp only [JValue.asObj, hres2]
  · unfold checkWorkloadForHostPathVolumes
    rw [hS]
    simp only [JValue.asObj, hres2]

/-- C8: every finding ever emitted by `GetHostPathVolumes` carries
`HostPaths` and `ReadOnly` sequences of equal length — projections of
one recorded volume entry list, so corresponding indices describe the
same mount — and both sequences are non-empty. -/
theorem hostPathFinding_parallel (config : ClusterConfig) (f : HostPathVolume)
    (hf : f ∈ GetHostPathVolumes config) :
    f.HostPaths.length = f.ReadOnly.length
    ∧ f.HostPaths ≠ [] ∧ f.ReadOnly ≠ []
    ∧ ∃ (spec : List (String × JValue)),
        f.HostPaths = (hostPathEntries (getArrD spec "volumes")).map Prod.snd
        ∧ f.ReadOnly = (hostPathEntries (getArrD spec "volumes")).map
            (fun e => volumeIsReadOnly spec e.1) := by
  obtain ⟨it2, nm, namespc, kind, hmem⟩ := mem_GetHostPathVolumes_source config f hf
  obtain ⟨spec, _, hne, rfl⟩ := checkPodForHostPathVolumes_shape it2 nm namespc kind f hmem
  refine ⟨by simp, by simpa using hne, by simpa using hne, spec, rfl, rfl⟩

/-- C2 witness: a Deployment finding and a managed-pod finding for the
same `(namespace, container-name)` pair; the Deployment entry is the
retained one. -/
theorem dedupA_unique_and_highest_witness :
    (deduplicatePrivilegedResults [privDeploymentFinding, privPodFinding]).Pairwise
      (fun f g => ¬(f.Namespace = g.Namespace ∧ f.Name = g.Name))
    ∧ privDeploymentFinding ∈ [privDeploymentFinding, privPodFinding]
    ∧ kindPriority privPodFinding.Kind ≤ kindPriority privDeploymentFinding.Kind := by
  have h := dedupA_unique_and_highest [privDeploymentFinding, privPodFinding] []
  have hm : privDeploymentFinding ∈ deduplicatePrivilegedResults
      [privDeploymentFinding, privPodFinding] := by decide
  have h2 := h.2.1 privDeploymentFinding hm
  exact ⟨h.1, h2.1, h2.2 privPodFinding (by decide) (by decide) (by decide)⟩

/-- C3 counterexample: policy B does not keep every non-Pod finding —
the second of two Deployment findings sharing a key is dropped. -/
theorem policyB_drops_second_nonPod :
    dupDeploymentFindingB.Kind ≠ "Pod"
    ∧ dupDeploymentFindingB ∉
        deduplicateHostNamespaceWorkloads [dupDeploymentFindingA, dupDeploymentFindingB] :=
  ⟨by decide, by decide⟩

/-- C3 witness: a control-plane-named standalone Pod finding is kept by
policy B. -/
theorem policyB_membership_charn_witness :
    cpPodFinding ∈ deduplicateHostNamespaceWorkloads [cpPodFinding] := by
  refine (policyB_membership_charn.1 [cpPodFinding] cpPodFinding).mpr (.inr ⟨rfl, ?_, ?_, ?_⟩)
  · decide
  · decide
  · decide

/-- C5 witness: a volume mounted read-write in one container and
read-only in another is reported read-only, and the emitted finding's
parallel sequences are the projections of the recorded entries. -/
theorem hostPathReadOnly_iff_witness :
    mountedReadOnlyInSomeContainer mixedMountSpec "data"
    ∧ (∃ spec, mixedMountPod.Spec = JValue.obj spec ∧
        mixedMountFinding.HostPaths
          = (hostPathEntries (getArrD spec "volumes")).map Prod.snd ∧
        mixedMountFinding.ReadOnly
          = (hostPathEntries (getArrD spec "volumes")).map
              (fun e => volumeIsReadOnly spec e.1)) := by
  constructor
  · exact (hostPathReadOnly_iff.1 mixedMountSpec "data").mp (by decide)
  · exact hostPathReadOnly_iff.2 mixedMountPod "p1" "ns1" "Pod" mixedMountFinding (by decide)

/-- C6 witness: the `kindnet` DaemonSet scenario — the pod check emits
exactly one finding, and the full pipeline returns the expected entry. -/
theorem checkPodForHostNamespaces_emits_iff_witness :
    (checkPodForHostNamespaces kindnetMockPod "kindnet" "kube-system" "DaemonSet").length = 1
    ∧ GetHostNamespaceWorkloads { Items := [kindnetItem] } =
        [{ Name := "kindnet", Namespace := "kube-system", Kind := "DaemonSet",
           HostPID := false, HostIPC := false, HostNetwork := true,
           HostPorts := [], ContainerNames := ["kindnet-cni"] }] := by
  constructor
  · exact (checkPodForHostNamespaces_emits_iff kindnetMockPod
      "kindnet" "kube-system" "DaemonSet").2.1.mpr
      ⟨kindnetPodSpec, rfl, .inr (.inr (.inl (by decide)))⟩
  · decide

/-- C7 counterexample: a container whose non-empty `add` holds only a
non-string entry yields no finding, contradicting "one finding per
container with non-empty `add`". -/
theorem capability_nonstring_add_dropped :
    checkContainersForCapabilities [nonStringAddContainer] "pod1" "ns1" "Pod" = []
    ∧ ([JValue.num 42] : List JValue).length = 1 :=
  ⟨by decide, rfl⟩

/-- C7 witness: a mixed `add` list produces exactly one finding whose
`Capabilities` are the string entries, in order. -/
theorem capabilityCheck_strings_witness :
    capabilityContainerCheck (JValue.obj capAddContainerObj) "p2" "ns2" "Pod"
      = [{ Name := "c2", Namespace := "ns2", Kind := "Pod", PodName := "p2",
           Capabilities := ["NET_ADMIN", "SYS_TIME"] }]
    ∧ ("NET_ADMIN" ∈ capAddList.filterMap JValue.asStr ↔ JValue.str "NET_ADMIN" ∈ capAddList) := by
  have h := capabilityCheck_strings (JValue.obj capAddContainerObj) "p2" "ns2" "Pod"
    capAddContainerObj capSCObj capCapsObj capAddList rfl rfl rfl rfl
    (by simp [capAddList])
  constructor
  · rw [h.1 (by decide)]
    rfl
  · exact h.2.2 "NET_ADMIN"

/-- C8 witness: the host-path finding of a concrete document satisfies
the parallel-sequence invariant. -/
theorem hostPathFinding_parallel_witness :
    etcdHostPathFinding.HostPaths.length = etcdHostPathFinding.ReadOnly.length
    ∧ etcdHostPathFinding.HostPaths ≠ [] := by
  have h := hostPathFinding_parallel etcdHostPathConfig etcdHostPathFinding (by decide)
  exact ⟨h.1, h.2.1⟩

/-- C10 witness: the `ns1` Deployment suppresses standalone analysis of
the `ns2` pod that references its kind and name. -/
theorem crossNamespace_suppression_witness :
    podKey crossNsPod ∈ processedPodKeys crossNsConfig
    ∧ hostNamespacePodContribution crossNsConfig crossNsPod = [] := by
  have h := crossNamespace_suppression crossNsConfig crossNsController crossNsPod
    (by simp [crossNsConfig]) (by decide) (by simp [crossNsConfig]) rfl
    ⟨{ Kind := "Deployment", Name := "web" }, by simp [crossNsPod], rfl, rfl⟩
  exact ⟨h.1, h.2.1⟩

/-- C1 counterexample: a pod whose owner references name an absent
Deployment is skipped by `GetPrivilegedContainers` (no finding despite
its privileged container) yet analyzed by `GetHostNamespaceWorkloads` —
the claimed uniform presence test is false for the privileged and
capability entry points. -/
theorem privileged_skips_orphanRef_pod :
    GetPrivilegedContainers orphanPodConfig = []
    ∧ GetHostNamespaceWorkloads orphanPodConfig
        = [{ Name := "etcd-orphan", Namespace := "ns2", Kind := "Pod",
             HostPID := false, HostIPC := false, HostNetwork := true,
             HostPorts := [], ContainerNames := ["c"] }]
    ∧ (orphanPodConfig.Items.filter (fun i => isWorkloadKind i.Kind)).length = 0 :=
  ⟨by decide, by decide, rfl⟩

/-- C1 witness: in `crossNsConfig` the pod is skipped by all four entry
points — by the privileged/capability owner-kind test and by the
host-pass marking. -/
theorem secondPass_gating_witness :
    ownedByWorkloadKind crossNsPod = true
    ∧ podKey crossNsPod ∈ processedPodKeys crossNsConfig
    ∧ privilegedPodContribution crossNsPod = []
    ∧ hostNamespacePodContribution crossNsConfig crossNsPod = [] := by
  have h := secondPass_gating crossNsConfig crossNsPod (by simp [crossNsConfig]) rfl
    (by decide) (by decide)
  have howned : ownedByWorkloadKind crossNsPod = true := by decide
  have hmark := h.2.2.2.1.mpr ⟨crossNsController, by simp [crossNsConfig], by decide,
    { Kind := "Deployment", Name := "web" }, by simp [crossNsPod], rfl, rfl⟩
  exact ⟨howned, hmark, (h.2.1 howned).1, (h.2.2.2.2.1 hmark).1⟩

/-- C4 counterexample: a CronJob with no `jobTemplate` but a direct
`template.spec` subtree IS processed — the privileged detector emits a
finding, contradicting "no findings for every such CronJob". -/
theorem cronJob_directTemplate_processed :
    getObj directTemplateCronJobObj "jobTemplate" = none
    ∧ processPrivilegedContainersInWorkload directTemplateCronJob
        = [{ Name := "c", Namespace := "ns3", Kind := "CronJob", PodName := "cj2" }] :=
  ⟨rfl, by decide⟩

/-- C4 witness: a CronJob with neither `jobTemplate` nor `template`
resolves to nothing and yields no findings. -/
theorem cronJobTemplate_fallback_witness :
    resolvePodSpec bareCronJob.Kind bareCronJobObj
      = (getObj bareCronJobObj "template").bind (fun t => getObj t "spec")
    ∧ processPrivilegedContainersInWorkload bareCronJob = [] := by
  have h := cronJobTemplate_fallback bareCronJobObj bareCronJob rfl rfl rfl
  exact ⟨h.1, (h.2 rfl).1⟩
